import Mathlib

/-!
# Verification of the claude-session-viewer usage-statistics engine

Shallow embedding of the server-side statistics aggregation pipeline:

* `src/server/utils/jsonl.ts` / `statistics/tokenUsage.ts` — fact extraction
  (`extractTokenUsage`, `aggregateTokenUsage`, `calculateCost`,
  `createEmptyTokenUsage`);
* `src/server/claude/config.ts` — `PRICING`, `DEFAULT_PRICING_MODEL`,
  `WEEKDAY_NAMES`;
* `src/server/claude/sessions/filters.ts` — `shouldSkipSession`,
  `isAgentSession`, `isEmptyFile`;
* `src/server/claude/sessions/agents.ts` — `collectAgentDescriptions`,
  `attachAgentSessionsToParent`;
* `src/server/claude/sessions/service.ts` — `getProjectSessions`;
* `src/server/statistics/aggregator.ts` — `formatDateLocal`,
  `processMessage`, `aggregateAllProjects`, `aggregateProject`;
* `src/server/statistics/utils.ts` — `fillMissingDates`;
* `src/server/statistics/service.ts` — `calculateCutoffDate`,
  `getOverallStatistics`, `getProjectStatistics`;
* `src/server/routes/statistics.ts` — the per-project route's
  project-existence check.

Modelling conventions:

* JavaScript numbers holding token counts are modelled as `Nat`; prices and
  derived ratios/costs are modelled as `ℚ` (the concrete values are small
  enough that JS float arithmetic is exact for the properties proved here;
  float rounding itself is out of scope).
* A JS `Date` is its epoch-millisecond value (`Int`).  The host timezone is a
  fixed offset `tz` in minutes, threaded through the pipeline; local calendar
  dates are modelled by their local day number (`localDay`), which is in
  bijection with the `YYYY-MM-DD` string produced by `formatDateLocal`.
  DST transitions are not modelled (a fixed-offset run).
* JS `Map` (insertion-ordered, last-write-wins) is an association list with
  in-place update and append-on-miss; JS `Set` is a duplicate-free list.
* Record shapes are closed tagged variants; absent/`undefined` fields are
  `Option`s, and JS truthiness checks on them are spelled out explicitly.
-/

namespace SessionViewer

/-- One millisecond-counted day, as used by JS date arithmetic. -/
def dayMs : Int := 86400000

/-! ## JS Map / Set primitives (association lists, insertion order) -/

/-- JS `m.get(k)` on a `Map` modelled as an association list. -/
def alistGet {K V : Type} [DecidableEq K] (m : List (K × V)) (k : K) : Option V :=
  (m.find? (fun kv => kv.1 = k)).map (·.2)

/-- The `if (!m.has(k)) m.set(k, init); f(m.get(k)!)` pattern: update the
existing entry in place, or append `(k, f init)` at the end (JS `Map.set`
appends new keys in insertion order). -/
def upsert {K V : Type} [DecidableEq K] :
    List (K × V) → K → V → (V → V) → List (K × V)
  | [], k, init, f => [(k, f init)]
  | (k', v) :: rest, k, init, f =>
      if k' = k then (k', f v) :: rest else (k', v) :: upsert rest k init f

/-- JS `m.get(k)!` followed by in-place mutation, for keys known to be present
(the pre-seeded hour/weekday maps); a no-op on a missing key. -/
def modifyAt {K V : Type} [DecidableEq K] :
    List (K × V) → K → (V → V) → List (K × V)
  | [], _, _ => []
  | (k', v) :: rest, k, f =>
      if k' = k then (k', f v) :: rest else (k', v) :: modifyAt rest k f

/-- JS `Map.set(k, v)`: overwrite in place or append. -/
def alistSet {K V : Type} [DecidableEq K] (m : List (K × V)) (k : K) (v : V) :
    List (K × V) :=
  upsert m k v (fun _ => v)

/-- JS `Set.add`: append if not already present. -/
def setAdd {α : Type} [DecidableEq α] (s : List α) (x : α) : List α :=
  if x ∈ s then s else s ++ [x]

/-- Character-level prefix test (kernel-reducible `startsWith`). -/
def chIsPre : List Char → List Char → Bool
  | [], _ => true
  | _ :: _, [] => false
  | p :: ps, c :: cs => p == c && chIsPre ps cs

/-- JS `String.prototype.startsWith`. -/
def strStartsWith (s pat : String) : Bool :=
  chIsPre pat.data s.data

/-- JS `String.prototype.endsWith`. -/
def strEndsWith (s pat : String) : Bool :=
  chIsPre pat.data.reverse s.data.reverse

/-- Remove the first occurrence of `pat` from `l` (none if absent). -/
def chRemoveFirst (pat : List Char) : List Char → List Char
  | [] => []
  | c :: rest =>
    if chIsPre pat (c :: rest) then (c :: rest).drop pat.length
    else c :: chRemoveFirst pat rest

/-- JS `String.prototype.replace(pat, '')` with a plain-string pattern
replaces only the first occurrence. -/
def replaceFirst (s pat : String) : String :=
  ⟨chRemoveFirst pat.data s.data⟩

/-- Stable sort (JS `Array.prototype.sort` is stable); insertion sort keyed
by a boolean `le`. -/
def sortInsert {α : Type} (le : α → α → Bool) (x : α) : List α → List α
  | [] => [x]
  | y :: ys => if le y x then y :: sortInsert le x ys else x :: y :: ys

/-- Stable sort of a whole list. -/
def sortBy {α : Type} (le : α → α → Bool) : List α → List α
  | [] => []
  | x :: xs => sortInsert le x (sortBy le xs)

/-! ## Local-time arithmetic

`tz` is the host timezone offset in minutes east of UTC. -/

/-- Milliseconds on the local clock for an instant `t` (epoch ms). -/
def localMs (tz t : Int) : Int := t + tz * 60000

/-- The local calendar day number of an instant: the key produced by
`formatDateLocal` (`getFullYear`/`getMonth`/`getDate` render exactly this
day as `YYYY-MM-DD`, a bijection on day numbers). -/
def localDay (tz t : Int) : Int := localMs tz t / dayMs

/-- Milliseconds since local midnight. -/
def msOfLocalDay (tz t : Int) : Int := localMs tz t % dayMs

/-- An absolute local-clock millisecond value back to an epoch instant. -/
def localToUtc (tz localAbs : Int) : Int := localAbs - tz * 60000

/-- Source `formatDateLocal` (statistics/aggregator.ts): the `YYYY-MM-DD` key in the
local timezone, modelled by the local day number. -/
def formatDateLocal (tz t : Int) : Int := localDay tz t

/-- The calendar-date half of `toISOString()` (UTC), for contrast with
`formatDateLocal`. -/
def utcDateKey (t : Int) : Int := t / dayMs

/-- JS `Date.prototype.getHours()` under a fixed offset. -/
def getHours (tz t : Int) : Int := msOfLocalDay tz t / 3600000

/-- JS `Date.prototype.getDay()` (0 = Sunday); epoch day 0 (1970-01-01) was a
Thursday, hence the `+ 4`. -/
def getDay (tz t : Int) : Int := (localDay tz t + 4) % 7

/-! ## Data model: records -/

/-- The optional `cache_creation` sub-breakdown on a usage block. -/
structure CacheCreationBlock where
  ephemeral_5m_input_tokens : Option Nat
  ephemeral_1h_input_tokens : Option Nat
  deriving Repr, DecidableEq

/-- The raw `usage` block of an assistant record; every numeric subfield may
be absent. -/
structure UsageBlock where
  input_tokens : Option Nat
  cache_creation_input_tokens : Option Nat
  cache_read_input_tokens : Option Nat
  output_tokens : Option Nat
  cache_creation : Option CacheCreationBlock
  deriving Repr, DecidableEq

/-- One content item of a record's payload, as a closed tagged variant:
`text`, `tool_use` (invocation), `tool_result` (outcome), or anything else.
For `tool_use`, `inputDescription` models `item.input?.description`; for
`tool_result`, `is_error` is true exactly when the JS field is `=== true`. -/
inductive ContentItem where
  | text (t : String)
  | toolUse (id : Option String) (name : Option String)
      (inputDescription : Option String)
  | toolResult (tool_use_id : Option String) (is_error : Bool)
  | other
  deriving Repr, DecidableEq

/-- Field `message.content` can be an array of items or a bare string. -/
inductive MsgContent where
  | str (s : String)
  | arr (items : List ContentItem)
  deriving Repr, DecidableEq

/-- The nested `message` payload of a record. -/
structure MsgBody where
  role : Option String
  model : Option String
  usage : Option UsageBlock
  content : Option MsgContent
  deriving Repr, DecidableEq

/-- One line of a session file.  `timestamp` is the parsed ISO timestamp in
epoch ms; `toolUseResultAgentId` models `msg.toolUseResult?.agentId`. -/
structure RawMessage where
  type : String
  timestamp : Int
  agentId : Option String
  toolUseResultAgentId : Option String
  message : Option MsgBody
  deriving Repr, DecidableEq

/-- JS truthiness of `message.message?.content`: absent and the empty string
are falsy, any array (even empty) is truthy. -/
def contentTruthy : Option MsgContent → Bool
  | none => false
  | some (.str s) => !(s == "")
  | some (.arr _) => true

/-- JS `Array.isArray(c) ? c : [{ type: 'text', text: c }]`. -/
def asItems : MsgContent → List ContentItem
  | .str s => [.text s]
  | .arr l => l

/-! ## Fact extractor (statistics/tokenUsage.ts) -/

/-- Source `TokenUsage`: the per-record token-usage fact. -/
structure TokenUsage where
  inputTokens : Nat
  cacheCreationTokens : Nat
  cacheReadTokens : Nat
  outputTokens : Nat
  totalTokens : Nat
  deriving Repr, DecidableEq

/-- Source `createEmptyTokenUsage`. -/
def createEmptyTokenUsage : TokenUsage :=
  { inputTokens := 0, cacheCreationTokens := 0, cacheReadTokens := 0,
    outputTokens := 0, totalTokens := 0 }

/-- Source `extractTokenUsage` (statistics/tokenUsage.ts): `null` unless the record
is an `assistant` record with a `usage` block; missing numeric subfields
default to 0 (`|| 0`); `totalTokens` is recomputed as the arithmetic sum;
the model falls back to `'unknown'` under JS `||` (absent or empty). -/
def extractTokenUsage (msg : RawMessage) : Option (TokenUsage × String) :=
  match msg.message with
  | none => none
  | some body =>
    if msg.type = "assistant" then
      match body.usage with
      | none => none
      | some u =>
        some
          ({ inputTokens := u.input_tokens.getD 0,
             cacheCreationTokens := u.cache_creation_input_tokens.getD 0,
             cacheReadTokens := u.cache_read_input_tokens.getD 0,
             outputTokens := u.output_tokens.getD 0,
             totalTokens :=
               u.input_tokens.getD 0 + u.cache_creation_input_tokens.getD 0 +
               u.cache_read_input_tokens.getD 0 + u.output_tokens.getD 0 },
           match body.model with
           | none => "unknown"
           | some m => if m = "" then "unknown" else m)
    else none

/-- Source `aggregateTokenUsage`: component-wise reduce from the empty usage. -/
def aggregateTokenUsage (usages : List TokenUsage) : TokenUsage :=
  usages.foldl
    (fun acc u =>
      { inputTokens := acc.inputTokens + u.inputTokens,
        cacheCreationTokens := acc.cacheCreationTokens + u.cacheCreationTokens,
        cacheReadTokens := acc.cacheReadTokens + u.cacheReadTokens,
        outputTokens := acc.outputTokens + u.outputTokens,
        totalTokens := acc.totalTokens + u.totalTokens })
    createEmptyTokenUsage

/-! ## Pricing (claude/config.ts) -/

/-- Per-million-token prices for one model. -/
structure ModelPricing where
  input : ℚ
  output : ℚ
  cacheCreation : ℚ
  cacheRead : ℚ
  deriving Repr, DecidableEq

/-- Source `PRICING` table from claude/config.ts. -/
def PRICING : List (String × ModelPricing) :=
  [("claude-sonnet-4-5-20250929",
    { input := 3, output := 15, cacheCreation := 3.75, cacheRead := 0.3 }),
   ("claude-sonnet-4-20250514",
    { input := 3, output := 15, cacheCreation := 3.75, cacheRead := 0.3 }),
   ("claude-opus-4-20250514",
    { input := 15, output := 75, cacheCreation := 18.75, cacheRead := 1.5 }),
   ("claude-haiku-4-20250515",
    { input := 0.80, output := 4, cacheCreation := 1, cacheRead := 0.08 })]

/-- Source `DEFAULT_PRICING_MODEL`. -/
def DEFAULT_PRICING_MODEL : String := "claude-sonnet-4-5-20250929"

/-- Source `WEEKDAY_NAMES` (Sunday-first). -/
def WEEKDAY_NAMES : List String :=
  ["Sunday", "Monday", "Tuesday", "Wednesday", "Thursday", "Friday", "Saturday"]

/-- The entry `PRICING[DEFAULT_PRICING_MODEL]` resolves to. -/
def defaultPricing : ModelPricing :=
  { input := 3, output := 15, cacheCreation := 3.75, cacheRead := 0.3 }

/-- Lookup `PRICING[model] || PRICING[DEFAULT_PRICING_MODEL]` as written at the
aggregator's call site: table lookup with fallback, never an error. -/
def resolvePricing (model : String) : ModelPricing :=
  (alistGet PRICING model).getD defaultPricing

/-- Source `CostBreakdown`. -/
structure CostBreakdown where
  inputCost : ℚ
  outputCost : ℚ
  cacheCreationCost : ℚ
  cacheReadCost : ℚ
  totalCost : ℚ
  deriving Repr, DecidableEq

/-- Source `calculateCost`: each component is `(tokens / 1e6) * pricePerMillion`;
`totalCost` re-adds the four component expressions. -/
def calculateCost (usage : TokenUsage) (pricing : ModelPricing) : CostBreakdown :=
  { inputCost := (usage.inputTokens : ℚ) / 1000000 * pricing.input,
    outputCost := (usage.outputTokens : ℚ) / 1000000 * pricing.output,
    cacheCreationCost :=
      (usage.cacheCreationTokens : ℚ) / 1000000 * pricing.cacheCreation,
    cacheReadCost := (usage.cacheReadTokens : ℚ) / 1000000 * pricing.cacheRead,
    totalCost :=
      (usage.inputTokens : ℚ) / 1000000 * pricing.input +
      (usage.outputTokens : ℚ) / 1000000 * pricing.output +
      (usage.cacheCreationTokens : ℚ) / 1000000 * pricing.cacheCreation +
      (usage.cacheReadTokens : ℚ) / 1000000 * pricing.cacheRead }

/-! ## Session classifier (claude/sessions/filters.ts) -/

/-- Source `shouldSkipSession`: exactly one record and it is an assistant record. -/
def shouldSkipSession (messages : List RawMessage) : Bool :=
  match messages with
  | [m] => m.type == "assistant"
  | _ => false

/-- Source `isAgentSession`: the filename-derived id starts with `agent-`. -/
def isAgentSession (sessionId : String) : Bool :=
  strStartsWith sessionId "agent-"

/-- Source `isEmptyFile`. -/
def isEmptyFile (fileSize : Nat) : Bool :=
  fileSize == 0

/-! ## Agent-session linking (claude/sessions/agents.ts) -/

/-- JS `a || b` on two optional strings (empty string is falsy). -/
def jsOrStr (a b : Option String) : Option String :=
  match a with
  | some s => if s = "" then b else some s
  | none => b

/-- Truthiness of an optional string. -/
def strTruthy : Option String → Bool
  | some s => !(s == "")
  | none => false

/-- Pass 1a of `collectAgentDescriptions`: `tool_use` items named exactly
`Task` with a truthy `input.description` record `invocation id →
description`.  The id is stored raw, so an absent id becomes a `none` key,
exactly as a JS `Map` stores `undefined`. -/
def toolUseDescriptionsOf (messages : List RawMessage) :
    List (Option String × String) :=
  messages.foldl
    (fun acc msg =>
      match msg.message with
      | some body =>
        if msg.type = "assistant" then
          match body.content with
          | some (.arr items) =>
            items.foldl
              (fun acc item =>
                match item with
                | .toolUse id (some nm) (some desc) =>
                  if nm = "Task" ∧ desc ≠ "" then alistSet acc id desc else acc
                | _ => acc)
              acc
          | _ => acc
        else acc
      | none => acc)
    []

/-- Pass 1b of `collectAgentDescriptions`: for every record carrying a
truthy agent id (`msg.agentId || msg.toolUseResult?.agentId`), map each of
its truthy `tool_result` outcome ids to that agent id. -/
def toolResultAgentIdsOf (messages : List RawMessage) :
    List (String × String) :=
  messages.foldl
    (fun acc msg =>
      match jsOrStr msg.agentId msg.toolUseResultAgentId with
      | some agentId =>
        if agentId = "" then acc
        else
          match msg.message with
          | some body =>
            match body.content with
            | some (.arr items) =>
              items.foldl
                (fun acc item =>
                  match item with
                  | .toolResult (some tid) _ =>
                    if tid = "" then acc else alistSet acc tid agentId
                  | _ => acc)
                acc
            | _ => acc
          | none => acc
      | none => acc)
    []

/-- Source `collectAgentDescriptions`: join the two pass-1 maps, emitting
`agent-{agentId} → description` for every Task invocation whose outcome
carries an agent id. -/
def collectAgentDescriptions (messages : List RawMessage) :
    List (String × String) :=
  (toolUseDescriptionsOf messages).foldl
    (fun acc kv =>
      match kv.1 with
      | some toolUseId =>
        match alistGet (toolResultAgentIdsOf messages) toolUseId with
        | some agentId => alistSet acc ("agent-" ++ agentId) kv.2
        | none => acc
      | none => acc)
    []

/-! ## Aggregated data (statistics/aggregator.ts) -/

/-- A daily bucket: running usage plus a distinct-session-id set. -/
structure DailyBucket where
  tokenUsage : TokenUsage
  sessionIds : List String
  deriving Repr, DecidableEq

/-- A project bucket. -/
structure ProjectBucket where
  tokenUsage : TokenUsage
  sessionIds : List String
  name : String
  deriving Repr, DecidableEq

/-- A model bucket. -/
structure ModelBucket where
  tokenUsage : TokenUsage
  messageCount : Nat
  deriving Repr, DecidableEq

/-- An hour-of-day / weekday bucket. -/
structure ActivityBucket where
  tokenUsage : TokenUsage
  sessionIds : List String
  messageCount : Nat
  deriving Repr, DecidableEq

/-- A per-tool counter pair. -/
structure ToolBucket where
  total : Nat
  successful : Nat
  deriving Repr, DecidableEq

/-- Source `AggregatedData`. -/
structure AggregatedData where
  dailyMap : List (Int × DailyBucket)
  projectMap : List (String × ProjectBucket)
  modelMap : List (String × ModelBucket)
  hourlyMap : List (Int × ActivityBucket)
  weekdayMap : List (Int × ActivityBucket)
  toolUsageMap : List (String × ToolBucket)
  totalMessages : Nat
  totalSessions : Nat
  minDate : Option Int
  maxDate : Option Int
  totalCacheCreation : Nat
  totalCacheRead : Nat
  ephemeral5mTokens : Nat
  ephemeral1hTokens : Nat
  allUsages : List TokenUsage
  allCosts : List ℚ
  totalAgentSessions : Nat
  deriving Repr, DecidableEq

/-- An empty activity bucket. -/
def emptyActivityBucket : ActivityBucket :=
  { tokenUsage := createEmptyTokenUsage, sessionIds := [], messageCount := 0 }

/-- Source `createEmptyAggregatedData`: fresh maps, with the hour map pre-seeded
for 0–23 and the weekday map for 0–6. -/
def createEmptyAggregatedData : AggregatedData :=
  { dailyMap := [], projectMap := [], modelMap := [],
    hourlyMap := (List.range 24).map (fun h => ((h : Int), emptyActivityBucket)),
    weekdayMap := (List.range 7).map (fun w => ((w : Int), emptyActivityBucket)),
    toolUsageMap := [],
    totalMessages := 0, totalSessions := 0, minDate := none, maxDate := none,
    totalCacheCreation := 0, totalCacheRead := 0,
    ephemeral5mTokens := 0, ephemeral1hTokens := 0,
    allUsages := [], allCosts := [], totalAgentSessions := 0 }

/-- The five `+=` lines every bucket update performs: add the four raw token
fields and the fact's own `totalTokens`. -/
def addUsage (t u : TokenUsage) : TokenUsage :=
  { inputTokens := t.inputTokens + u.inputTokens,
    cacheCreationTokens := t.cacheCreationTokens + u.cacheCreationTokens,
    cacheReadTokens := t.cacheReadTokens + u.cacheReadTokens,
    outputTokens := t.outputTokens + u.outputTokens,
    totalTokens := t.totalTokens + u.totalTokens }

/-- The 5-minute-retention contribution of `message.message?.usage?.cache_creation`:
the `if (cacheCreation)` guard plus `|| 0` default amount to adding 0
whenever the breakdown or its subfield is absent. -/
def eph5Of (msg : RawMessage) : Nat :=
  match msg.message.bind (fun b => b.usage) with
  | some ub =>
    match ub.cache_creation with
    | some cc => cc.ephemeral_5m_input_tokens.getD 0
    | none => 0
  | none => 0

/-- The 1-hour-retention contribution, as `eph5Of`. -/
def eph1Of (msg : RawMessage) : Nat :=
  match msg.message.bind (fun b => b.usage) with
  | some ub =>
    match ub.cache_creation with
    | some cc => cc.ephemeral_1h_input_tokens.getD 0
    | none => 0
  | none => 0

/-- One `tool_result` item of a user record: credit a successful outcome to
the tool name resolved through `toolUseIdMap`, provided the name resolves
and the entry already exists in `toolUsageMap` (an unmatched outcome
increments nothing). -/
def toolResultStep (toolUseIdMap : List (String × String))
    (d : AggregatedData) (item : ContentItem) : AggregatedData :=
  match item with
  | .toolResult tid isErr =>
    match tid.bind (alistGet toolUseIdMap) with
    | some toolName =>
      if isErr then d
      else
        let m := modifyAt d.toolUsageMap toolName
          (fun s => { s with successful := s.successful + 1 })
        { d with toolUsageMap := m }
    | none => d
  | _ => d

/-- The `tool_result` half of `processMessage`, folded over a user record's
content items. -/
def processToolResults (msg : RawMessage) (data : AggregatedData)
    (toolUseIdMap : List (String × String)) : AggregatedData :=
  match msg.message with
  | some body =>
    if msg.type = "user" && contentTruthy body.content then
      match body.content with
      | some c => (asItems c).foldl (toolResultStep toolUseIdMap) data
      | none => data
    else data
  | none => data

/-- One `tool_use` item of an assistant payload: record the id → tool-name
pair (both must be truthy) and increment that tool's `total`. -/
def toolUseStep (acc : AggregatedData × List (String × String))
    (item : ContentItem) : AggregatedData × List (String × String) :=
  match item with
  | .toolUse id name _ =>
    match id, name with
    | some i, some nm =>
      if i = "" ∨ nm = "" then acc
      else
        let m := upsert acc.1.toolUsageMap nm
          { total := 0, successful := 0 }
          (fun s => { s with total := s.total + 1 })
        ({ acc.1 with toolUsageMap := m }, alistSet acc.2 i nm)
    | _, _ => acc
  | _ => acc

/-- The `tool_use` half of `processMessage`, folded over an assistant
payload's content items. -/
def processToolUses (msg : RawMessage) (data : AggregatedData)
    (toolUseIdMap : List (String × String)) :
    AggregatedData × List (String × String) :=
  match msg.message with
  | some body =>
    if body.role = some "assistant" && contentTruthy body.content then
      match body.content with
      | some c => (asItems c).foldl toolUseStep (data, toolUseIdMap)
      | none => (data, toolUseIdMap)
    else (data, toolUseIdMap)
  | none => (data, toolUseIdMap)

/-- The min/max observed-date tracking and `totalMessages++` performed once
a record yields a usage fact, together with the `allUsages`/`allCosts`
pushes. -/
def recordMessageFact (usage : TokenUsage) (cost : ℚ) (messageDate : Int)
    (data : AggregatedData) : AggregatedData :=
  { data with
    minDate :=
      match data.minDate with
      | none => some messageDate
      | some d => if messageDate < d then some messageDate else some d,
    maxDate :=
      match data.maxDate with
      | none => some messageDate
      | some d => if d < messageDate then some messageDate else some d,
    totalMessages := data.totalMessages + 1,
    allUsages := data.allUsages ++ [usage],
    allCosts := data.allCosts ++ [cost] }

/-- The `// Update daily map` block: upsert the date bucket, add the four
token fields plus the fact's own total, and insert the session id. -/
def updateDaily (dateKey : Int) (sessionId : String) (usage : TokenUsage)
    (data : AggregatedData) : AggregatedData :=
  { data with
    dailyMap :=
      upsert data.dailyMap dateKey
        { tokenUsage := createEmptyTokenUsage, sessionIds := [] }
        (fun b =>
          { b with tokenUsage := addUsage b.tokenUsage usage,
                   sessionIds := setAdd b.sessionIds sessionId }) }

/-- The `// Update hourly map` block (the bucket is pre-seeded). -/
def updateHourly (hour : Int) (sessionId : String) (usage : TokenUsage)
    (data : AggregatedData) : AggregatedData :=
  { data with
    hourlyMap :=
      modifyAt data.hourlyMap hour
        (fun b =>
          { tokenUsage := addUsage b.tokenUsage usage,
            sessionIds := setAdd b.sessionIds sessionId,
            messageCount := b.messageCount + 1 }) }

/-- The `// Update weekday map` block (the bucket is pre-seeded). -/
def updateWeekday (weekday : Int) (sessionId : String) (usage : TokenUsage)
    (data : AggregatedData) : AggregatedData :=
  { data with
    weekdayMap :=
      modifyAt data.weekdayMap weekday
        (fun b =>
          { tokenUsage := addUsage b.tokenUsage usage,
            sessionIds := setAdd b.sessionIds sessionId,
            messageCount := b.messageCount + 1 }) }

/-- The `// Update project map` block; the display name is an external
labeling transform, recorded here as the raw id. -/
def updateProject (projectId : String) (usage : TokenUsage)
    (data : AggregatedData) : AggregatedData :=
  { data with
    projectMap :=
      upsert data.projectMap projectId
        { tokenUsage := createEmptyTokenUsage, sessionIds := [],
          name := projectId }
        (fun b => { b with tokenUsage := addUsage b.tokenUsage usage }) }

/-- The `// Update model map` block. -/
def updateModel (model : String) (usage : TokenUsage)
    (data : AggregatedData) : AggregatedData :=
  { data with
    modelMap :=
      upsert data.modelMap model
        { tokenUsage := createEmptyTokenUsage, messageCount := 0 }
        (fun b =>
          { tokenUsage := addUsage b.tokenUsage usage,
            messageCount := b.messageCount + 1 }) }

/-- The `// Update cache stats` block, including the optional ephemeral
breakdown. -/
def updateCacheTotals (msg : RawMessage) (usage : TokenUsage)
    (data : AggregatedData) : AggregatedData :=
  { data with
    totalCacheCreation := data.totalCacheCreation + usage.cacheCreationTokens,
    totalCacheRead := data.totalCacheRead + usage.cacheReadTokens,
    ephemeral5mTokens := data.ephemeral5mTokens + eph5Of msg,
    ephemeral1hTokens := data.ephemeral1hTokens + eph1Of msg }

/-- Source `processMessage` (statistics/aggregator.ts): fold one record into the
aggregated data.  Tool outcomes are processed first (user records carry no
usage); then, if the record yields a token-usage fact, the bucket groups
are updated in source order; finally assistant `tool_use` items are
recorded. -/
def processMessage (tz : Int) (msg : RawMessage) (sessionId projectId : String)
    (data : AggregatedData) (toolUseIdMap : List (String × String)) :
    AggregatedData × List (String × String) :=
  let data := processToolResults msg data toolUseIdMap
  match extractTokenUsage msg with
  | none => (data, toolUseIdMap)
  | some (usage, model) =>
    let messageDate := msg.timestamp
    let pricing := resolvePricing model
    let data :=
      recordMessageFact usage (calculateCost usage pricing).totalCost
        messageDate data
    let data := updateDaily (formatDateLocal tz messageDate) sessionId usage data
    let data := updateHourly (getHours tz messageDate) sessionId usage data
    let data := updateWeekday (getDay tz messageDate) sessionId usage data
    let data := updateProject projectId usage data
    let data := updateModel model usage data
    let data := updateCacheTotals msg usage data
    processToolUses msg data toolUseIdMap

/-! ## Record source model and the aggregation passes -/

/-- One session file as the record source reports it: filename, byte size,
and its parsed records (parsing itself is an external collaborator; the
statistics aggregator receives the parsed record list). -/
structure SessionFile where
  name : String
  size : Nat
  mtime : Int
  messages : List RawMessage
  deriving Repr, DecidableEq

/-- One entry of the projects directory. -/
structure ProjectDir where
  id : String
  isDir : Bool
  files : List SessionFile
  deriving Repr, DecidableEq

/-- One iteration of the per-message loop shared by both aggregation
passes: a record whose timestamp is strictly before the cutoff contributes
nothing (`continue`); all others go through `processMessage`. -/
def sessionMsgStep (tz cutoffDate : Int) (sessionId projectId : String)
    (acc : AggregatedData × List (String × String)) (msg : RawMessage) :
    AggregatedData × List (String × String) :=
  if msg.timestamp < cutoffDate then acc
  else processMessage tz msg sessionId projectId acc.1 acc.2

/-- The per-message loop shared by both aggregation passes. -/
def foldSessionMessages (tz cutoffDate : Int) (sessionId projectId : String)
    (start : AggregatedData × List (String × String))
    (messages : List RawMessage) : AggregatedData × List (String × String) :=
  messages.foldl (sessionMsgStep tz cutoffDate sessionId projectId) start

/-- The body of `aggregateAllProjects`'s inner file loop (everything from
the `.jsonl` filter to the message fold).  `preSeeded` tells whether the
project entry was already inserted (it always is, by the project loop). -/
def aggregateFileStep (tz cutoffDate : Int) (projectId : String)
    (data : AggregatedData) (file : SessionFile) : AggregatedData :=
  if !strEndsWith file.name ".jsonl" then data
  else
    let sessionId := replaceFirst file.name ".jsonl"
    if isAgentSession sessionId then data
    else if isEmptyFile file.size then data
    else if shouldSkipSession file.messages then data
    else
      let agentDescriptions := collectAgentDescriptions file.messages
      let data :=
        if agentDescriptions.length > 0 then
          { data with totalAgentSessions := data.totalAgentSessions + 1 }
        else data
      let data :=
        { data with
          projectMap :=
            modifyAt data.projectMap projectId
              (fun b => { b with sessionIds := setAdd b.sessionIds sessionId }),
          totalSessions := data.totalSessions + 1 }
      (foldSessionMessages tz cutoffDate sessionId projectId (data, []) file.messages).1

/-- The body of `aggregateAllProjects`'s project loop: skip non-directories,
pre-seed the project bucket, then fold every file. -/
def aggregateProjectStep (tz cutoffDate : Int) (data : AggregatedData)
    (project : ProjectDir) : AggregatedData :=
  if !project.isDir then data
  else
    let data :=
      { data with
        projectMap :=
          -- `if (!data.projectMap.has(project)) data.projectMap.set(project, empty)`;
          -- the display name is an external labeling transform, recorded as the id.
          upsert data.projectMap project.id
            { tokenUsage := createEmptyTokenUsage, sessionIds := [],
              name := project.id }
            (fun b => b) }
    project.files.foldl (aggregateFileStep tz cutoffDate project.id) data

/-- Source `aggregateAllProjects` (statistics/aggregator.ts). -/
def aggregateAllProjects (tz cutoffDate : Int) (projects : List ProjectDir) :
    AggregatedData :=
  projects.foldl (aggregateProjectStep tz cutoffDate) createEmptyAggregatedData

/-- The file loop of `aggregateProject`: same as the all-projects file loop
except that the project bucket is neither pre-seeded nor given session ids
(the single-project report takes its session count from `totalSessions`). -/
def aggregateProjectFileStep (tz cutoffDate : Int) (projectId : String)
    (data : AggregatedData) (file : SessionFile) : AggregatedData :=
  if !strEndsWith file.name ".jsonl" then data
  else
    let sessionId := replaceFirst file.name ".jsonl"
    if isAgentSession sessionId then data
    else if isEmptyFile file.size then data
    else if shouldSkipSession file.messages then data
    else
      let agentDescriptions := collectAgentDescriptions file.messages
      let data :=
        if agentDescriptions.length > 0 then
          { data with totalAgentSessions := data.totalAgentSessions + 1 }
        else data
      let data := { data with totalSessions := data.totalSessions + 1 }
      (foldSessionMessages tz cutoffDate sessionId projectId (data, []) file.messages).1

/-- Source `aggregateProject` (statistics/aggregator.ts): single-project pass over
that project's directory listing. -/
def aggregateProject (tz cutoffDate : Int) (projectId : String)
    (files : List SessionFile) : AggregatedData :=
  files.foldl (aggregateProjectFileStep tz cutoffDate projectId)
    createEmptyAggregatedData

/-! ## Report assembly (statistics/utils.ts, statistics/service.ts) -/

/-- Source `DailyUsageStats`; the date key is the local day number standing for the
`YYYY-MM-DD` string. -/
structure DailyUsageStats where
  date : Int
  tokenUsage : TokenUsage
  sessionCount : Nat
  deriving Repr, DecidableEq

/-- Number of iterations of the `while (currentDate <= end)` loop stepping
one day at a time from `start`. -/
def fillIterations (start endDate : Int) : Nat :=
  ((endDate - start) / dayMs + 1).toNat

/-- The loop body of `fillMissingDates`, by iteration count: each pushed
entry is `{ date, tokenUsage: data?.tokenUsage || empty, sessionCount:
data?.sessionIds.size || 0 }`. -/
def fillDaysLoop (tz : Int) (dailyMap : List (Int × DailyBucket)) :
    Nat → Int → List DailyUsageStats
  | 0, _ => []
  | n + 1, currentDate =>
    let dateKey := formatDateLocal tz currentDate
    let data := alistGet dailyMap dateKey
    { date := dateKey,
      tokenUsage :=
        match data with
        | some b => b.tokenUsage
        | none => createEmptyTokenUsage,
      sessionCount :=
        match data with
        | some b => b.sessionIds.length
        | none => 0 } :: fillDaysLoop tz dailyMap n (currentDate + dayMs)

/-- Source `fillMissingDates` (statistics/utils.ts): walk day by day from
`startDate` to `endDate` (inclusive), emitting the bucket when present and
a zero entry otherwise.  Stepping `setDate(getDate() + 1)` under a fixed
offset adds exactly `dayMs`. -/
def fillMissingDates (tz : Int) (dailyMap : List (Int × DailyBucket))
    (startDate endDate : Int) : List DailyUsageStats :=
  fillDaysLoop tz dailyMap (fillIterations startDate endDate) startDate

/-- The window selector: `"all"` or an integer-as-string `N` = last N days. -/
inductive Window where
  | all
  | days (n : Int)
  deriving Repr, DecidableEq

/-- Source `calculateCutoffDate` (statistics/service.ts): for `"all"`, rewind the
calendar fields to 2000-01-01 keeping the time of day (local day 10957 is
2000-01-01); for `N`, local midnight `N` days before now. -/
def calculateCutoffDate (tz now : Int) (w : Window) : Int :=
  match w with
  | .all => localToUtc tz (10957 * dayMs + msOfLocalDay tz now)
  | .days n => localToUtc tz ((localDay tz now - n) * dayMs)

/-- The daily-list start the service computes: the earliest observed message
date when the window is `"all"` and any data exists, the cutoff otherwise. -/
def effectiveStartDate (tz now : Int) (w : Window) (minDate : Option Int) : Int :=
  match w, minDate with
  | .all, some d => d
  | _, _ => calculateCutoffDate tz now w

/-- Source `ProjectUsageStats`. -/
structure ProjectUsageStats where
  id : String
  name : String
  tokenUsage : TokenUsage
  sessionCount : Nat
  deriving Repr, DecidableEq

/-- Source `ModelUsageStats`. -/
structure ModelUsageStats where
  model : String
  tokenUsage : TokenUsage
  messageCount : Nat
  deriving Repr, DecidableEq

/-- Source `ToolUsageStats`; `successRate` is a percentage. -/
structure ToolUsageStats where
  toolName : String
  totalUses : Nat
  successfulUses : Nat
  successRate : ℚ
  deriving Repr, DecidableEq

/-- Source `HourlyActivityStats`. -/
structure HourlyActivityStats where
  hour : Int
  sessionCount : Nat
  messageCount : Nat
  tokenUsage : TokenUsage
  deriving Repr, DecidableEq

/-- Source `WeekdayActivityStats`. -/
structure WeekdayActivityStats where
  weekday : Int
  weekdayName : String
  sessionCount : Nat
  messageCount : Nat
  tokenUsage : TokenUsage
  deriving Repr, DecidableEq

/-- The `cache` section of the report. -/
structure CacheStats where
  totalCacheCreation : Nat
  totalCacheRead : Nat
  ephemeral5mTokens : Nat
  ephemeral1hTokens : Nat
  cacheHitRate : ℚ
  estimatedSavings : ℚ
  deriving Repr, DecidableEq

/-- The `overview` section; the date-range endpoints stand for the ISO
strings of the corresponding instants. -/
structure StatsOverview where
  tokenUsage : TokenUsage
  sessionCount : Nat
  messageCount : Nat
  dateRangeStart : Int
  dateRangeEnd : Int
  deriving Repr, DecidableEq

/-- The `productivity` section. -/
structure ProductivityStats where
  toolUsage : List ToolUsageStats
  totalToolCalls : Nat
  agentSessions : Nat
  totalSessions : Nat
  agentUsageRate : ℚ
  deriving Repr, DecidableEq

/-- The `trends` section. -/
structure TrendStats where
  byHour : List HourlyActivityStats
  byWeekday : List WeekdayActivityStats
  deriving Repr, DecidableEq

/-- Source `UsageStatistics`: the full report. -/
structure UsageStatistics where
  overview : StatsOverview
  daily : List DailyUsageStats
  byProject : List ProjectUsageStats
  byModel : List ModelUsageStats
  cache : CacheStats
  cost : CostBreakdown
  productivity : ProductivityStats
  trends : TrendStats
  deriving Repr, DecidableEq

/-- The tool list shared by both service entry points: map the tool map to
stats (`successRate = successful/total*100`, 0 when `total` is 0) and sort
descending by `totalUses` (stable). -/
def buildToolUsage (m : List (String × ToolBucket)) : List ToolUsageStats :=
  sortBy (fun a b => b.totalUses ≤ a.totalUses)
    (m.map (fun kv =>
      { toolName := kv.1, totalUses := kv.2.total,
        successfulUses := kv.2.successful,
        successRate :=
          if kv.2.total > 0 then
            (kv.2.successful : ℚ) / (kv.2.total : ℚ) * 100
          else 0 }))

/-- The hour list: one entry per pre-seeded bucket, sorted ascending. -/
def buildByHour (m : List (Int × ActivityBucket)) : List HourlyActivityStats :=
  sortBy (fun a b => a.hour ≤ b.hour)
    (m.map (fun kv =>
      { hour := kv.1, sessionCount := kv.2.sessionIds.length,
        messageCount := kv.2.messageCount, tokenUsage := kv.2.tokenUsage }))

/-- The weekday list: one entry per pre-seeded bucket, named from the
Sunday-first table, sorted ascending. -/
def buildByWeekday (m : List (Int × ActivityBucket)) : List WeekdayActivityStats :=
  sortBy (fun a b => a.weekday ≤ b.weekday)
    (m.map (fun kv =>
      { weekday := kv.1, weekdayName := WEEKDAY_NAMES.getD kv.1.toNat "",
        sessionCount := kv.2.sessionIds.length,
        messageCount := kv.2.messageCount, tokenUsage := kv.2.tokenUsage }))

/-- The cache section shared by both service entry points. -/
def buildCacheStats (data : AggregatedData) : CacheStats :=
  { totalCacheCreation := data.totalCacheCreation,
    totalCacheRead := data.totalCacheRead,
    ephemeral5mTokens := data.ephemeral5mTokens,
    ephemeral1hTokens := data.ephemeral1hTokens,
    cacheHitRate :=
      if data.totalCacheCreation + data.totalCacheRead > 0 then
        (data.totalCacheRead : ℚ) /
          ((data.totalCacheCreation : ℚ) + (data.totalCacheRead : ℚ)) * 100
      else 0,
    estimatedSavings :=
      (data.totalCacheRead : ℚ) / 1000000 *
        (defaultPricing.input - defaultPricing.cacheRead) }

/-- Source `getOverallStatistics` (statistics/service.ts). -/
def getOverallStatistics (tz now : Int) (w : Window)
    (projects : List ProjectDir) : UsageStatistics :=
  let cutoffDate := calculateCutoffDate tz now w
  let data := aggregateAllProjects tz cutoffDate projects
  let totalUsage := aggregateTokenUsage data.allUsages
  let costBreakdown := calculateCost totalUsage defaultPricing
  let startDate := effectiveStartDate tz now w data.minDate
  let endDate := now
  let daily := fillMissingDates tz data.dailyMap startDate endDate
  let byProject :=
    sortBy (fun a b => b.tokenUsage.totalTokens ≤ a.tokenUsage.totalTokens)
      (data.projectMap.map (fun kv =>
        { id := kv.1, name := kv.2.name, tokenUsage := kv.2.tokenUsage,
          sessionCount := kv.2.sessionIds.length }))
  let byModel :=
    sortBy (fun a b => b.tokenUsage.totalTokens ≤ a.tokenUsage.totalTokens)
      (data.modelMap.map (fun kv =>
        { model := kv.1, tokenUsage := kv.2.tokenUsage,
          messageCount := kv.2.messageCount }))
  let toolUsage := buildToolUsage data.toolUsageMap
  let totalToolCalls := data.toolUsageMap.foldl (fun s kv => s + kv.2.total) 0
  let agentUsageRate :=
    if data.totalSessions > 0 then
      (data.totalAgentSessions : ℚ) / (data.totalSessions : ℚ) * 100
    else 0
  { overview :=
      { tokenUsage := totalUsage, sessionCount := data.totalSessions,
        messageCount := data.totalMessages,
        dateRangeStart := startDate, dateRangeEnd := endDate },
    daily := daily,
    byProject := byProject,
    byModel := byModel,
    cache := buildCacheStats data,
    cost := costBreakdown,
    productivity :=
      { toolUsage := toolUsage, totalToolCalls := totalToolCalls,
        agentSessions := data.totalAgentSessions,
        totalSessions := data.totalSessions,
        agentUsageRate := agentUsageRate },
    trends :=
      { byHour := buildByHour data.hourlyMap,
        byWeekday := buildByWeekday data.weekdayMap } }

/-- Source `getProjectStatistics` (statistics/service.ts): identical shape, scoped
to one project's directory listing; `byProject` is a single synthesized
entry (total usage, `totalSessions`) when the aggregate has seen the
project, and empty otherwise. -/
def getProjectStatistics (tz now : Int) (projectId : String) (w : Window)
    (files : List SessionFile) : UsageStatistics :=
  let cutoffDate := calculateCutoffDate tz now w
  let data := aggregateProject tz cutoffDate projectId files
  let totalUsage := aggregateTokenUsage data.allUsages
  let costBreakdown := calculateCost totalUsage defaultPricing
  let startDate := effectiveStartDate tz now w data.minDate
  let endDate := now
  let daily := fillMissingDates tz data.dailyMap startDate endDate
  let byProject : List ProjectUsageStats :=
    match alistGet data.projectMap projectId with
    | some pb =>
      [{ id := projectId, name := pb.name, tokenUsage := totalUsage,
         sessionCount := data.totalSessions }]
    | none => []
  let byModel :=
    sortBy (fun a b => b.tokenUsage.totalTokens ≤ a.tokenUsage.totalTokens)
      (data.modelMap.map (fun kv =>
        { model := kv.1, tokenUsage := kv.2.tokenUsage,
          messageCount := kv.2.messageCount }))
  let toolUsage := buildToolUsage data.toolUsageMap
  let totalToolCalls := data.toolUsageMap.foldl (fun s kv => s + kv.2.total) 0
  let agentUsageRate :=
    if data.totalSessions > 0 then
      (data.totalAgentSessions : ℚ) / (data.totalSessions : ℚ) * 100
    else 0
  { overview :=
      { tokenUsage := totalUsage, sessionCount := data.totalSessions,
        messageCount := data.totalMessages,
        dateRangeStart := startDate, dateRangeEnd := endDate },
    daily := daily,
    byProject := byProject,
    byModel := byModel,
    cache := buildCacheStats data,
    cost := costBreakdown,
    productivity :=
      { toolUsage := toolUsage, totalToolCalls := totalToolCalls,
        agentSessions := data.totalAgentSessions,
        totalSessions := data.totalSessions,
        agentUsageRate := agentUsageRate },
    trends :=
      { byHour := buildByHour data.hourlyMap,
        byWeekday := buildByWeekday data.weekdayMap } }

/-- The per-project route (routes/statistics.ts): `stat` the project
directory first and answer a distinct "Project not found" failure when it
is missing or not a directory; otherwise delegate to
`getProjectStatistics`. -/
def projectStatisticsEndpoint (tz now : Int) (projects : List ProjectDir)
    (projectId : String) (w : Window) : Except String UsageStatistics :=
  match (projects.find? (fun p => p.id = projectId)) with
  | none => .error "Project not found"
  | some p =>
    if !p.isDir then .error "Project not found"
    else .ok (getProjectStatistics tz now projectId w p.files)

/-! ## Session listing (claude/sessions/service.ts)

Only the structure relevant to agent-session surfacing is embedded; title
extraction is an out-of-scope collaborator and is passed in as a function. -/

/-- A loaded session as pass 1 of `getProjectSessions` builds it. -/
structure SessionCore where
  id : String
  projectId : String
  timestamp : Int
  messageCount : Nat
  messages : List RawMessage
  title : String
  isAgent : Bool
  deriving Repr, DecidableEq

/-- A top-level session after pass 2, possibly carrying its linked agent
sessions (`none` models the field being left `undefined` when the parent
has no Task links). -/
structure SessionOut where
  core : SessionCore
  agentSessions : Option (List SessionCore)
  deriving Repr, DecidableEq

/-- One file of pass 1 of `getProjectSessions`: load a non-empty `.jsonl`
file (`listSessionFiles` filters on the extension) and route it to the
top-level list or to the agent-session map by the filename test. -/
def loadSessionStep (titleOf : List RawMessage → String) (projectId : String)
    (acc : List SessionCore × List (String × SessionCore))
    (file : SessionFile) : List SessionCore × List (String × SessionCore) :=
  if !strEndsWith file.name ".jsonl" then acc
  else if isEmptyFile file.size then acc
  else
    let sessionId := replaceFirst file.name ".jsonl"
    if shouldSkipSession file.messages then acc
    else
      let session : SessionCore :=
        { id := sessionId, projectId := projectId,
          timestamp := file.mtime, messageCount := file.messages.length,
          messages := file.messages, title := titleOf file.messages,
          isAgent := isAgentSession sessionId }
      if session.isAgent then (acc.1, alistSet acc.2 sessionId session)
      else (acc.1 ++ [session], acc.2)

/-- Pass 1 of `getProjectSessions`, folded over the directory listing. -/
def loadSessionsPass (titleOf : List RawMessage → String) (projectId : String)
    (files : List SessionFile) :
    List SessionCore × List (String × SessionCore) :=
  files.foldl (loadSessionStep titleOf projectId) ([], [])

/-- Source `attachAgentSessionsToParent`: nothing is attached when the
parent has no link descriptions; otherwise resolve each linked agent id in
the agent-session map, override its title with the Task description, and
sort the children chronologically. -/
def attachAgentSessionsToParent (session : SessionCore)
    (agentDescriptions : List (String × String))
    (agentSessionsMap : List (String × SessionCore)) : SessionOut :=
  if agentDescriptions.length = 0 then
    { core := session, agentSessions := none }
  else
    let children :=
      agentDescriptions.foldl
        (fun acc kv =>
          match alistGet agentSessionsMap kv.1 with
          | some agentSession => acc ++ [{ agentSession with title := kv.2 }]
          | none => acc)
        []
    { core := session,
      agentSessions := some (sortBy (fun a b => a.timestamp ≤ b.timestamp) children) }

/-- Source `getProjectSessions`: pass 1 loads and partitions, pass 2
attaches agent sessions to their parents; only main sessions are returned
at top level. -/
def getProjectSessions (titleOf : List RawMessage → String)
    (projectId : String) (files : List SessionFile) : List SessionOut :=
  let loaded := loadSessionsPass titleOf projectId files
  loaded.1.map
    (fun session =>
      attachAgentSessionsToParent session
        (collectAgentDescriptions session.messages) loaded.2)

/-! ## Specification-level predicates and helpers -/

/-- A token-usage value whose `totalTokens` is the sum of its four
components — the invariant the extractor establishes and every bucket
update preserves. -/
def GoodTU (u : TokenUsage) : Prop :=
  u.totalTokens = u.inputTokens + u.cacheCreationTokens +
    u.cacheReadTokens + u.outputTokens

instance : DecidablePred GoodTU := fun _ =>
  inferInstanceAs (Decidable (_ = _))

/-- Every usage sum held anywhere in the aggregated data satisfies
`GoodTU`. -/
def GoodData (d : AggregatedData) : Prop :=
  (∀ kv ∈ d.dailyMap, GoodTU kv.2.tokenUsage) ∧
  (∀ kv ∈ d.projectMap, GoodTU kv.2.tokenUsage) ∧
  (∀ kv ∈ d.modelMap, GoodTU kv.2.tokenUsage) ∧
  (∀ kv ∈ d.hourlyMap, GoodTU kv.2.tokenUsage) ∧
  (∀ kv ∈ d.weekdayMap, GoodTU kv.2.tokenUsage) ∧
  (∀ u ∈ d.allUsages, GoodTU u)

/-- The ascending enumeration of the integers from `a` to `b` inclusive
(empty when `b < a`): the shape the daily list's dates must take. -/
def intRange (a b : Int) : List Int :=
  (List.range (b - a + 1).toNat).map (fun (k : Nat) => a + (k : Int))

/-! ## Concrete example inputs (witnesses and counterexamples) -/

/-- A report instant: local day 20000, 10:00 local time at UTC. -/
def exNow : Int := 20000 * dayMs + 36000000

/-- A usage block with 100 input / 500 cache-read / 50 output tokens. -/
def exUsage : UsageBlock :=
  { input_tokens := some 100, cache_creation_input_tokens := none,
    cache_read_input_tokens := some 500, output_tokens := some 50,
    cache_creation := none }

/-- An assistant record carrying `exUsage` and one `Bash` tool invocation,
on local day 19999. -/
def exMsgAssistant : RawMessage :=
  { type := "assistant", timestamp := 19999 * dayMs + 7200000,
    agentId := none, toolUseResultAgentId := none,
    message := some
      { role := some "assistant",
        model := some "claude-sonnet-4-5-20250929", usage := some exUsage,
        content := some (.arr [.toolUse (some "t1") (some "Bash") none]) } }

/-- A user record answering invocation `t1` successfully. -/
def exMsgUser : RawMessage :=
  { type := "user", timestamp := 19999 * dayMs + 7300000,
    agentId := none, toolUseResultAgentId := none,
    message := some
      { role := some "user", model := none, usage := none,
        content := some (.arr [.toolResult (some "t1") false]) } }

/-- The token-usage fact `exUsage` extracts to. -/
def exUsageTU : TokenUsage :=
  { inputTokens := 100, cacheCreationTokens := 0, cacheReadTokens := 500,
    outputTokens := 50, totalTokens := 650 }

/-- The assistant record half an hour past UTC midnight of day 19999: at
offset UTC−1h its local calendar date (19998) differs from its UTC
calendar date (19999). -/
def exMsgHalfHour : RawMessage :=
  { exMsgAssistant with timestamp := 19999 * dayMs + 1800000 }

/-- A session whose records all predate any recent cutoff (timestamps 100
and 200 ms after the epoch). -/
def exFileOld : SessionFile :=
  { name := "s-old.jsonl", size := 10, mtime := 0,
    messages := [{ exMsgUser with timestamp := 100 },
                 { exMsgAssistant with timestamp := 200 }] }

/-- A session with one in-window record dated one day after `exNow`
(clock skew: an observed date later than "today"). -/
def exFileSkew : SessionFile :=
  { name := "s-skew.jsonl", size := 10, mtime := 0,
    messages := [exMsgUser, { exMsgAssistant with timestamp := exNow + dayMs }] }

/-- A session in which the single `Bash` invocation `t1` receives two
successful `tool_result` answers. -/
def exFileDupResult : SessionFile :=
  { name := "s-dup.jsonl", size := 10, mtime := 0,
    messages := [exMsgAssistant, exMsgUser,
                 { exMsgUser with timestamp := 19999 * dayMs + 7400000 }] }

/-! ## Association-list lemmas -/

theorem alistGet_upsert_self {K V : Type} [DecidableEq K]
    (m : List (K × V)) (k : K) (init : V) (f : V → V) :
    alistGet (upsert m k init f) k = some (f ((alistGet m k).getD init)) := by
  induction m with
  | nil => simp [upsert, alistGet]
  | cons kv rest ih =>
    obtain ⟨k', v⟩ := kv
    by_cases h : k' = k
    · subst h
      simp [upsert, alistGet]
    · simp [upsert, alistGet, h] at ih ⊢
      exact ih

theorem alistGet_upsert_ne {K V : Type} [DecidableEq K]
    (m : List (K × V)) (k k' : K) (init : V) (f : V → V) (hne : k' ≠ k) :
    alistGet (upsert m k init f) k' = alistGet m k' := by
  induction m with
  | nil => simp [upsert, alistGet, List.find?, Ne.symm hne]
  | cons kv rest ih =>
    obtain ⟨k₀, v⟩ := kv
    by_cases h : k₀ = k
    · subst h
      simp [upsert, alistGet, List.find?, Ne.symm hne]
    · by_cases h' : k₀ = k'
      · subst h'
        simp [upsert, alistGet, List.find?, h]
      · simp only [upsert, if_neg h]
        simp [alistGet, List.find?, h'] at ih ⊢
        exact ih

theorem forall_upsert {K V : Type} [DecidableEq K] {P : V → Prop}
    (m : List (K × V)) (k : K) (init : V) (f : V → V)
    (hm : ∀ kv ∈ m, P kv.2) (hf : ∀ v, P v → P (f v)) (hi : P init) :
    ∀ kv ∈ upsert m k init f, P kv.2 := by
  induction m with
  | nil =>
    intro kv hkv
    simp only [upsert, List.mem_singleton] at hkv
    subst hkv
    exact hf _ hi
  | cons kv₀ rest ih =>
    obtain ⟨k₀, v₀⟩ := kv₀
    intro kv hkv
    rw [upsert] at hkv
    by_cases h : k₀ = k
    · rw [if_pos h] at hkv
      rcases List.mem_cons.mp hkv with h' | h'
      · subst h'
        exact hf _ (hm (k₀, v₀) (List.mem_cons_self _ _))
      · exact hm kv (List.mem_cons_of_mem _ h')
    · rw [if_neg h] at hkv
      rcases List.mem_cons.mp hkv with h' | h'
      · subst h'
        exact hm (k₀, v₀) (List.mem_cons_self _ _)
      · exact ih (fun x hx => hm x (List.mem_cons_of_mem _ hx)) kv h'

theorem forall_modifyAt {K V : Type} [DecidableEq K] {P : V → Prop}
    (m : List (K × V)) (k : K) (f : V → V)
    (hm : ∀ kv ∈ m, P kv.2) (hf : ∀ v, P v → P (f v)) :
    ∀ kv ∈ modifyAt m k f, P kv.2 := by
  induction m with
  | nil => simp [modifyAt]
  | cons kv₀ rest ih =>
    obtain ⟨k₀, v₀⟩ := kv₀
    intro kv hkv
    rw [modifyAt] at hkv
    by_cases h : k₀ = k
    · rw [if_pos h] at hkv
      rcases List.mem_cons.mp hkv with h' | h'
      · subst h'
        exact hf _ (hm (k₀, v₀) (List.mem_cons_self _ _))
      · exact hm kv (List.mem_cons_of_mem _ h')
    · rw [if_neg h] at hkv
      rcases List.mem_cons.mp hkv with h' | h'
      · subst h'
        exact hm (k₀, v₀) (List.mem_cons_self _ _)
      · exact ih (fun x hx => hm x (List.mem_cons_of_mem _ hx)) kv h'

/-! ## C7: the fact extractor -/

/-- C7.  `extractTokenUsage(record)` returns `null` iff the record's kind is
not `assistant` or it has no usage block; when it returns a fact, each
missing numeric subfield contributes 0, and `totalTokens` is the arithmetic
sum of the four components (never copied from a source field). -/
theorem c7_extract_token_usage (msg : RawMessage) :
    (extractTokenUsage msg = none ↔
      msg.type ≠ "assistant" ∨ msg.message.bind (fun b => b.usage) = none) ∧
    (∀ u model, extractTokenUsage msg = some (u, model) →
      (∃ body block, msg.message = some body ∧ body.usage = some block ∧
        u.inputTokens = block.input_tokens.getD 0 ∧
        u.cacheCreationTokens = block.cache_creation_input_tokens.getD 0 ∧
        u.cacheReadTokens = block.cache_read_input_tokens.getD 0 ∧
        u.outputTokens = block.output_tokens.getD 0) ∧
      u.totalTokens = u.inputTokens + u.cacheCreationTokens +
        u.cacheReadTokens + u.outputTokens) := by
  obtain ⟨ty, ts, aid, taid, m⟩ := msg
  constructor
  · cases m with
    | none => simp [extractTokenUsage]
    | some body =>
      by_cases hty : ty = "assistant"
      · cases hb : body.usage <;> simp [extractTokenUsage, hty, hb]
      · simp [extractTokenUsage, hty]
  · intro u model h
    cases m with
    | none => simp [extractTokenUsage] at h
    | some body =>
      by_cases hty : ty = "assistant"
      · cases hb : body.usage with
        | none => simp [extractTokenUsage, hty, hb] at h
        | some block =>
          simp [extractTokenUsage, hty, hb] at h
          obtain ⟨hu, -⟩ := h
          subst hu
          exact ⟨⟨body, block, rfl, hb, rfl, rfl, rfl, rfl⟩, rfl⟩
      · simp [extractTokenUsage, hty] at h

/-- C7 witness: a concrete assistant record with a partial usage block. -/
theorem c7_extract_token_usage_witness :
    (extractTokenUsage
        { type := "assistant", timestamp := 0, agentId := none,
          toolUseResultAgentId := none,
          message := some
            { role := some "assistant", model := none,
              usage := some
                { input_tokens := some 7, cache_creation_input_tokens := none,
                  cache_read_input_tokens := some 5, output_tokens := none,
                  cache_creation := none },
              content := none } } =
      some ({ inputTokens := 7, cacheCreationTokens := 0, cacheReadTokens := 5,
              outputTokens := 0, totalTokens := 12 }, "unknown")) ∧
    ({ inputTokens := 7, cacheCreationTokens := 0, cacheReadTokens := 5,
       outputTokens := 0, totalTokens := 12 : TokenUsage }).totalTokens = 12 := by
  refine ⟨by decide, ?_⟩
  have h := (c7_extract_token_usage
    { type := "assistant", timestamp := 0, agentId := none,
      toolUseResultAgentId := none,
      message := some
        { role := some "assistant", model := none,
          usage := some
            { input_tokens := some 7, cache_creation_input_tokens := none,
              cache_read_input_tokens := some 5, output_tokens := none,
              cache_creation := none },
          content := none } }).2
    { inputTokens := 7, cacheCreationTokens := 0, cacheReadTokens := 5,
      outputTokens := 0, totalTokens := 12 } "unknown" (by decide)
  exact h.2

/-! ## C8: pricing fallback -/

/-- C8.  A model id absent from the pricing table resolves to the fixed
default model's price entry (no error path exists), and a message with any
non-zero token count still produces a strictly positive cost. -/
theorem c8_unknown_model_fallback (model : String) (u : TokenUsage)
    (hm : alistGet PRICING model = none)
    (hu : 0 < u.inputTokens + u.cacheCreationTokens +
            u.cacheReadTokens + u.outputTokens) :
    resolvePricing model = defaultPricing ∧
    alistGet PRICING DEFAULT_PRICING_MODEL = some defaultPricing ∧
    0 < (calculateCost u (resolvePricing model)).totalCost := by
  have h1 : resolvePricing model = defaultPricing := by
    rw [resolvePricing, hm]
    rfl
  refine ⟨h1, by rfl, ?_⟩
  rw [h1]
  simp only [calculateCost, defaultPricing]
  have n1 : (0 : ℚ) ≤ (u.inputTokens : ℚ) / 1000000 * 3 := by positivity
  have n2 : (0 : ℚ) ≤ (u.outputTokens : ℚ) / 1000000 * 15 := by positivity
  have n3 : (0 : ℚ) ≤ (u.cacheCreationTokens : ℚ) / 1000000 * 3.75 := by positivity
  have n4 : (0 : ℚ) ≤ (u.cacheReadTokens : ℚ) / 1000000 * 0.3 := by positivity
  have hcase : 0 < u.inputTokens ∨ 0 < u.cacheCreationTokens ∨
      0 < u.cacheReadTokens ∨ 0 < u.outputTokens := by omega
  rcases hcase with h | h | h | h
  · have hp : (0 : ℚ) < (u.inputTokens : ℚ) / 1000000 * 3 := by
      have : (0 : ℚ) < (u.inputTokens : ℚ) := by exact_mod_cast h
      positivity
    linarith
  · have hp : (0 : ℚ) < (u.cacheCreationTokens : ℚ) / 1000000 * 3.75 := by
      have : (0 : ℚ) < (u.cacheCreationTokens : ℚ) := by exact_mod_cast h
      positivity
    linarith
  · have hp : (0 : ℚ) < (u.cacheReadTokens : ℚ) / 1000000 * 0.3 := by
      have : (0 : ℚ) < (u.cacheReadTokens : ℚ) := by exact_mod_cast h
      positivity
    linarith
  · have hp : (0 : ℚ) < (u.outputTokens : ℚ) / 1000000 * 15 := by
      have : (0 : ℚ) < (u.outputTokens : ℚ) := by exact_mod_cast h
      positivity
    linarith

/-- C8 witness: an unrecognized model id with one input token. -/
theorem c8_unknown_model_fallback_witness :
    alistGet PRICING "some-future-model" = none ∧
    0 < (1 : Nat) + 0 + 0 + 0 ∧
    0 < (calculateCost
          { inputTokens := 1, cacheCreationTokens := 0, cacheReadTokens := 0,
            outputTokens := 0, totalTokens := 1 }
          (resolvePricing "some-future-model")).totalCost :=
  ⟨by decide, by decide,
    (c8_unknown_model_fallback "some-future-model"
      { inputTokens := 1, cacheCreationTokens := 0, cacheReadTokens := 0,
        outputTokens := 0, totalTokens := 1 }
      (by decide) (by decide)).2.2⟩

/-! ## C4: cache hit rate -/

theorem buildCacheStats_rate (data : AggregatedData) :
    (buildCacheStats data).cacheHitRate =
      ((buildCacheStats data).totalCacheRead : ℚ) /
        (((buildCacheStats data).totalCacheRead : ℚ) +
          ((buildCacheStats data).totalCacheCreation : ℚ)) * 100 ∧
    ((buildCacheStats data).totalCacheRead = 0 ∧
      (buildCacheStats data).totalCacheCreation = 0 →
      (buildCacheStats data).cacheHitRate = 0) := by
  simp only [buildCacheStats]
  constructor
  · split_ifs with h
    · rw [add_comm ((data.totalCacheCreation : ℚ)) ((data.totalCacheRead : ℚ))]
    · have hr : data.totalCacheRead = 0 := by omega
      have hc : data.totalCacheCreation = 0 := by omega
      simp [hr, hc]
  · intro ⟨hr, hc⟩
    simp [hr, hc]

/-- C4.  In every assembled report (overall and per-project), the cache hit
rate equals `cacheRead / (cacheRead + cacheCreation) * 100` over the
report's own total cache sums (in ℚ, where the `x/0 = 0` convention makes
the guarded and unguarded forms agree), and it is 0 when both sums are
zero — the divide-by-zero guard in `buildCacheStats`. -/
theorem c4_cache_hit_rate (tz now : Int) (w : Window)
    (projects : List ProjectDir) (projectId : String)
    (files : List SessionFile) :
    ((getOverallStatistics tz now w projects).cache.cacheHitRate =
        ((getOverallStatistics tz now w projects).cache.totalCacheRead : ℚ) /
          (((getOverallStatistics tz now w projects).cache.totalCacheRead : ℚ) +
            ((getOverallStatistics tz now w projects).cache.totalCacheCreation : ℚ)) *
          100 ∧
      ((getOverallStatistics tz now w projects).cache.totalCacheRead = 0 ∧
        (getOverallStatistics tz now w projects).cache.totalCacheCreation = 0 →
        (getOverallStatistics tz now w projects).cache.cacheHitRate = 0)) ∧
    ((getProjectStatistics tz now projectId w files).cache.cacheHitRate =
        ((getProjectStatistics tz now projectId w files).cache.totalCacheRead : ℚ) /
          (((getProjectStatistics tz now projectId w files).cache.totalCacheRead : ℚ) +
            ((getProjectStatistics tz now projectId w files).cache.totalCacheCreation : ℚ)) *
          100 ∧
      ((getProjectStatistics tz now projectId w files).cache.totalCacheRead = 0 ∧
        (getProjectStatistics tz now projectId w files).cache.totalCacheCreation = 0 →
        (getProjectStatistics tz now projectId w files).cache.cacheHitRate = 0)) := by
  constructor
  · have h := buildCacheStats_rate
      (aggregateAllProjects tz (calculateCutoffDate tz now w) projects)
    simpa only [getOverallStatistics] using h
  · have h := buildCacheStats_rate
      (aggregateProject tz (calculateCutoffDate tz now w) projectId files)
    simpa only [getProjectStatistics] using h

/-- C4 witness: the empty archive has zero sums and hit rate 0. -/
theorem c4_cache_hit_rate_witness :
    (getOverallStatistics 0 0 Window.all []).cache.totalCacheRead = 0 ∧
    (getOverallStatistics 0 0 Window.all []).cache.totalCacheCreation = 0 ∧
    (getOverallStatistics 0 0 Window.all []).cache.cacheHitRate = 0 :=
  ⟨by decide, by decide,
    ((c4_cache_hit_rate 0 0 Window.all [] "p" []).1).2 ⟨by decide, by decide⟩⟩

/-! ## C10: the totalTokens invariant -/

theorem goodTU_empty : GoodTU createEmptyTokenUsage := rfl

theorem goodTU_addUsage {t u : TokenUsage} (ht : GoodTU t) (hu : GoodTU u) :
    GoodTU (addUsage t u) := by
  unfold GoodTU addUsage at *
  simp only
  omega

theorem extract_goodTU {msg : RawMessage} {u : TokenUsage} {model : String}
    (h : extractTokenUsage msg = some (u, model)) : GoodTU u := by
  obtain ⟨ty, ts, aid, taid, m⟩ := msg
  cases m with
  | none => simp [extractTokenUsage] at h
  | some body =>
    by_cases hty : ty = "assistant"
    · cases hb : body.usage with
      | none => simp [extractTokenUsage, hty, hb] at h
      | some block =>
        simp [extractTokenUsage, hty, hb] at h
        obtain ⟨hu, -⟩ := h
        subst hu
        rfl
    · simp [extractTokenUsage, hty] at h

theorem goodData_empty : GoodData createEmptyAggregatedData := by
  unfold GoodData
  refine ⟨by decide, by decide, by decide, by decide, by decide, by decide⟩

/-- Replacing the tool map leaves every usage bucket untouched. -/
theorem goodData_toolMap {d : AggregatedData} (t : List (String × ToolBucket))
    (hd : GoodData d) : GoodData { d with toolUsageMap := t } :=
  ⟨hd.1, hd.2.1, hd.2.2.1, hd.2.2.2.1, hd.2.2.2.2.1, hd.2.2.2.2.2⟩

theorem toolResultStep_goodData {tm : List (String × String)}
    {d : AggregatedData} {item : ContentItem} (hd : GoodData d) :
    GoodData (toolResultStep tm d item) := by
  unfold toolResultStep
  split
  · split
    · split_ifs with h
      · exact hd
      · exact goodData_toolMap _ hd
    · exact hd
  · exact hd

theorem foldl_toolResultStep_goodData {tm : List (String × String)} :
    ∀ (items : List ContentItem) (d : AggregatedData), GoodData d →
      GoodData (items.foldl (toolResultStep tm) d)
  | [], _, hd => hd
  | _ :: rest, _, hd =>
    foldl_toolResultStep_goodData rest _ (toolResultStep_goodData hd)

theorem processToolResults_goodData {msg : RawMessage} {d : AggregatedData}
    {tm : List (String × String)} (hd : GoodData d) :
    GoodData (processToolResults msg d tm) := by
  obtain ⟨ty, ts, aid, taid, m⟩ := msg
  cases m with
  | none => exact hd
  | some body =>
    unfold processToolResults
    simp only
    split_ifs with h
    · cases body.content with
      | none => exact hd
      | some c => exact foldl_toolResultStep_goodData _ _ hd
    · exact hd

theorem toolUseStep_goodData {acc : AggregatedData × List (String × String)}
    {item : ContentItem} (hd : GoodData acc.1) :
    GoodData (toolUseStep acc item).1 := by
  unfold toolUseStep
  split
  · split
    · split_ifs with h
      · exact hd
      · exact goodData_toolMap _ hd
    · exact hd
  · exact hd

theorem foldl_toolUseStep_goodData :
    ∀ (items : List ContentItem) (acc : AggregatedData × List (String × String)),
      GoodData acc.1 → GoodData (items.foldl toolUseStep acc).1
  | [], _, hd => hd
  | _ :: rest, _, hd =>
    foldl_toolUseStep_goodData rest _ (toolUseStep_goodData hd)

theorem processToolUses_goodData {msg : RawMessage} {d : AggregatedData}
    {tm : List (String × String)} (hd : GoodData d) :
    GoodData (processToolUses msg d tm).1 := by
  obtain ⟨ty, ts, aid, taid, m⟩ := msg
  cases m with
  | none => exact hd
  | some body =>
    unfold processToolUses
    simp only
    split_ifs with h
    · cases body.content with
      | none => exact hd
      | some c => exact foldl_toolUseStep_goodData _ _ hd
    · exact hd

theorem recordMessageFact_goodData {u : TokenUsage} {cost : ℚ} {ts : Int}
    {d : AggregatedData} (hu : GoodTU u) (hd : GoodData d) :
    GoodData (recordMessageFact u cost ts d) := by
  refine ⟨hd.1, hd.2.1, hd.2.2.1, hd.2.2.2.1, hd.2.2.2.2.1, ?_⟩
  intro u' hu'
  rcases List.mem_append.mp hu' with h' | h'
  · exact hd.2.2.2.2.2 u' h'
  · rw [List.mem_singleton.mp h']
    exact hu

theorem updateDaily_goodData {k : Int} {sid : String} {u : TokenUsage}
    {d : AggregatedData} (hu : GoodTU u) (hd : GoodData d) :
    GoodData (updateDaily k sid u d) := by
  refine ⟨?_, hd.2.1, hd.2.2.1, hd.2.2.2.1, hd.2.2.2.2.1, hd.2.2.2.2.2⟩
  exact @forall_upsert Int DailyBucket _ (fun b => GoodTU b.tokenUsage)
    d.dailyMap k _ _ hd.1 (fun v hv => goodTU_addUsage hv hu) goodTU_empty

theorem updateHourly_goodData {h : Int} {sid : String} {u : TokenUsage}
    {d : AggregatedData} (hu : GoodTU u) (hd : GoodData d) :
    GoodData (updateHourly h sid u d) := by
  refine ⟨hd.1, hd.2.1, hd.2.2.1, ?_, hd.2.2.2.2.1, hd.2.2.2.2.2⟩
  exact @forall_modifyAt Int ActivityBucket _ (fun b => GoodTU b.tokenUsage)
    d.hourlyMap h _ hd.2.2.2.1 (fun v hv => goodTU_addUsage hv hu)

theorem updateWeekday_goodData {wd : Int} {sid : String} {u : TokenUsage}
    {d : AggregatedData} (hu : GoodTU u) (hd : GoodData d) :
    GoodData (updateWeekday wd sid u d) := by
  refine ⟨hd.1, hd.2.1, hd.2.2.1, hd.2.2.2.1, ?_, hd.2.2.2.2.2⟩
  exact @forall_modifyAt Int ActivityBucket _ (fun b => GoodTU b.tokenUsage)
    d.weekdayMap wd _ hd.2.2.2.2.1 (fun v hv => goodTU_addUsage hv hu)

theorem updateProject_goodData {pid : String} {u : TokenUsage}
    {d : AggregatedData} (hu : GoodTU u) (hd : GoodData d) :
    GoodData (updateProject pid u d) := by
  refine ⟨hd.1, ?_, hd.2.2.1, hd.2.2.2.1, hd.2.2.2.2.1, hd.2.2.2.2.2⟩
  exact @forall_upsert String ProjectBucket _ (fun b => GoodTU b.tokenUsage)
    d.projectMap pid _ _ hd.2.1 (fun v hv => goodTU_addUsage hv hu) goodTU_empty

theorem updateModel_goodData {model : String} {u : TokenUsage}
    {d : AggregatedData} (hu : GoodTU u) (hd : GoodData d) :
    GoodData (updateModel model u d) := by
  refine ⟨hd.1, hd.2.1, ?_, hd.2.2.2.1, hd.2.2.2.2.1, hd.2.2.2.2.2⟩
  exact @forall_upsert String ModelBucket _ (fun b => GoodTU b.tokenUsage)
    d.modelMap model _ _ hd.2.2.1 (fun v hv => goodTU_addUsage hv hu) goodTU_empty

theorem updateCacheTotals_goodData {msg : RawMessage} {u : TokenUsage}
    {d : AggregatedData} (hd : GoodData d) :
    GoodData (updateCacheTotals msg u d) :=
  ⟨hd.1, hd.2.1, hd.2.2.1, hd.2.2.2.1, hd.2.2.2.2.1, hd.2.2.2.2.2⟩

theorem processMessage_goodData (tz : Int) (msg : RawMessage)
    (sid pid : String) {d : AggregatedData} (tm : List (String × String))
    (hd : GoodData d) : GoodData (processMessage tz msg sid pid d tm).1 := by
  unfold processMessage
  have hd0 : GoodData (processToolResults msg d tm) :=
    processToolResults_goodData hd
  cases hex : extractTokenUsage msg with
  | none => exact hd0
  | some pair =>
    obtain ⟨u, model⟩ := pair
    have hu : GoodTU u := extract_goodTU hex
    simp only
    exact processToolUses_goodData
      (updateCacheTotals_goodData
        (updateModel_goodData hu
          (updateProject_goodData hu
            (updateWeekday_goodData hu
              (updateHourly_goodData hu
                (updateDaily_goodData hu
                  (recordMessageFact_goodData hu hd0)))))))

theorem foldSessionMessages_goodData (tz cutoffDate : Int) (sid pid : String) :
    ∀ (msgs : List RawMessage)
      (acc : AggregatedData × List (String × String)), GoodData acc.1 →
      GoodData (foldSessionMessages tz cutoffDate sid pid acc msgs).1 := by
  intro msgs
  induction msgs with
  | nil => intro acc hd; exact hd
  | cons m rest ih =>
    intro acc hd
    rw [foldSessionMessages, List.foldl_cons]
    apply ih
    unfold sessionMsgStep
    split_ifs with h
    · exact hd
    · exact processMessage_goodData tz m sid pid acc.2 hd

/-- Bumping the agent-session counter leaves every usage bucket untouched. -/
theorem goodData_agentInc {d : AggregatedData} (hd : GoodData d) :
    GoodData { d with totalAgentSessions := d.totalAgentSessions + 1 } :=
  ⟨hd.1, hd.2.1, hd.2.2.1, hd.2.2.2.1, hd.2.2.2.2.1, hd.2.2.2.2.2⟩

/-- Adding a session id to the project bucket and bumping `totalSessions`
leaves every usage sum untouched. -/
theorem goodData_sessionCount {d : AggregatedData} (pid sid : String)
    (hd : GoodData d) :
    GoodData
      { d with
        projectMap :=
          modifyAt d.projectMap pid
            (fun b => { b with sessionIds := setAdd b.sessionIds sid }),
        totalSessions := d.totalSessions + 1 } := by
  refine ⟨hd.1, ?_, hd.2.2.1, hd.2.2.2.1, hd.2.2.2.2.1, hd.2.2.2.2.2⟩
  exact @forall_modifyAt String ProjectBucket _ (fun b => GoodTU b.tokenUsage)
    d.projectMap pid _ hd.2.1 (fun v hv => hv)

theorem aggregateFileStep_goodData (tz cutoffDate : Int) (pid : String)
    {d : AggregatedData} (f : SessionFile) (hd : GoodData d) :
    GoodData (aggregateFileStep tz cutoffDate pid d f) := by
  simp only [aggregateFileStep]
  split_ifs with h1 h2 h3 h4 h5
  · exact hd
  · exact hd
  · exact hd
  · exact hd
  · exact foldSessionMessages_goodData tz cutoffDate _ pid f.messages _
      (goodData_sessionCount _ _ (goodData_agentInc hd))
  · exact foldSessionMessages_goodData tz cutoffDate _ pid f.messages _
      (goodData_sessionCount _ _ hd)

theorem foldl_aggregateFileStep_goodData (tz cutoffDate : Int) (pid : String)
    (files : List SessionFile) : ∀ (d : AggregatedData), GoodData d →
      GoodData (files.foldl (aggregateFileStep tz cutoffDate pid) d) := by
  induction files with
  | nil => intro d hd; exact hd
  | cons f rest ih =>
    intro d hd
    rw [List.foldl_cons]
    exact ih _ (aggregateFileStep_goodData tz cutoffDate pid f hd)

/-- Pre-seeding a project bucket (empty usage) preserves the invariant. -/
theorem goodData_projectSeed {d : AggregatedData} (pid : String)
    (hd : GoodData d) :
    GoodData
      { d with
        projectMap :=
          upsert d.projectMap pid
            { tokenUsage := createEmptyTokenUsage, sessionIds := [],
              name := pid } (fun b => b) } := by
  refine ⟨hd.1, ?_, hd.2.2.1, hd.2.2.2.1, hd.2.2.2.2.1, hd.2.2.2.2.2⟩
  exact @forall_upsert String ProjectBucket _ (fun b => GoodTU b.tokenUsage)
    d.projectMap pid _ _ hd.2.1 (fun v hv => hv) goodTU_empty

theorem aggregateProjectStep_goodData (tz cutoffDate : Int)
    {d : AggregatedData} (project : ProjectDir) (hd : GoodData d) :
    GoodData (aggregateProjectStep tz cutoffDate d project) := by
  simp only [aggregateProjectStep]
  split_ifs with h
  · exact hd
  · exact foldl_aggregateFileStep_goodData tz cutoffDate project.id
      project.files _ (goodData_projectSeed project.id hd)

theorem aggregateAllProjects_goodData (tz cutoffDate : Int)
    (projects : List ProjectDir) :
    GoodData (aggregateAllProjects tz cutoffDate projects) := by
  rw [aggregateAllProjects]
  have h : ∀ (ps : List ProjectDir) (d : AggregatedData), GoodData d →
      GoodData (ps.foldl (aggregateProjectStep tz cutoffDate) d) := by
    intro ps
    induction ps with
    | nil => intro d hd; exact hd
    | cons p rest ih =>
      intro d hd
      rw [List.foldl_cons]
      exact ih _ (aggregateProjectStep_goodData tz cutoffDate p hd)
  exact h projects _ goodData_empty

theorem aggregateTokenUsage_goodTU (l : List TokenUsage)
    (hl : ∀ u ∈ l, GoodTU u) : GoodTU (aggregateTokenUsage l) := by
  rw [aggregateTokenUsage]
  have h : ∀ (l' : List TokenUsage) (acc : TokenUsage), GoodTU acc →
      (∀ u ∈ l', GoodTU u) →
      GoodTU (l'.foldl
        (fun acc u =>
          { inputTokens := acc.inputTokens + u.inputTokens,
            cacheCreationTokens := acc.cacheCreationTokens + u.cacheCreationTokens,
            cacheReadTokens := acc.cacheReadTokens + u.cacheReadTokens,
            outputTokens := acc.outputTokens + u.outputTokens,
            totalTokens := acc.totalTokens + u.totalTokens }) acc) := by
    intro l'
    induction l' with
    | nil => intro acc hacc _; exact hacc
    | cons u rest ih =>
      intro acc hacc hall
      rw [List.foldl_cons]
      refine ih _ ?_ (fun v hv => hall v (List.mem_cons_of_mem _ hv))
      have hu : GoodTU u := hall u (List.mem_cons_self _ _)
      unfold GoodTU at *
      simp only
      omega
  exact h l _ goodTU_empty hl

/-- C10 (implicit invariant).  Every bucket of every grouping map in the
aggregated data, and the aggregated overview total, carries a `totalTokens`
equal to the sum of its own four token components: the extractor only emits
facts with that property (`GoodTU`), and every bucket update adds such a
fact component-wise. -/
theorem c10_total_tokens_invariant (tz cutoffDate now : Int) (w : Window)
    (projects : List ProjectDir) :
    GoodData (aggregateAllProjects tz cutoffDate projects) ∧
    GoodTU (aggregateTokenUsage
      (aggregateAllProjects tz cutoffDate projects).allUsages) ∧
    GoodTU ((getOverallStatistics tz now w projects).overview.tokenUsage) := by
  refine ⟨aggregateAllProjects_goodData tz cutoffDate projects,
    aggregateTokenUsage_goodTU _
      (aggregateAllProjects_goodData tz cutoffDate projects).2.2.2.2.2, ?_⟩
  have h2 := aggregateTokenUsage_goodTU _
    (aggregateAllProjects_goodData tz (calculateCutoffDate tz now w)
      projects).2.2.2.2.2
  simpa only [getOverallStatistics] using h2

/-- C10 witness: the invariant evaluated on a concrete archive. -/
theorem c10_total_tokens_invariant_witness :
    GoodTU ((getOverallStatistics 0 exNow (Window.days 7)
      [{ id := "p1", isDir := true, files := [exFileDupResult] }]).overview.tokenUsage) :=
  (c10_total_tokens_invariant 0 0 exNow (Window.days 7)
    [{ id := "p1", isDir := true, files := [exFileDupResult] }]).2.2

/-! ## C3: the daily list -/

theorem localDay_add_dayMs (tz t : Int) :
    localDay tz (t + dayMs) = localDay tz t + 1 := by
  unfold localDay localMs dayMs
  omega

theorem fillDaysLoop_dates (tz : Int) (m : List (Int × DailyBucket)) :
    ∀ (n : Nat) (cur : Int),
      (fillDaysLoop tz m n cur).map (fun e => e.date) =
        (List.range n).map (fun (k : Nat) => localDay tz cur + (k : Int)) := by
  intro n
  induction n with
  | zero => intro cur; rfl
  | succ n ih =>
    intro cur
    rw [fillDaysLoop, List.range_succ_eq_map]
    simp only [List.map_cons, List.map_map]
    congr 1
    · show formatDateLocal tz cur = localDay tz cur + ((0 : Nat) : Int)
      simp [formatDateLocal]
    · rw [ih (cur + dayMs), localDay_add_dayMs]
      apply List.map_congr_left
      intro k _
      simp only [Function.comp_apply, Nat.succ_eq_add_one]
      push_cast
      ring

theorem fillIterations_eq (tz start endT : Int)
    (h : msOfLocalDay tz start ≤ msOfLocalDay tz endT) :
    fillIterations start endT =
      (localDay tz endT - localDay tz start + 1).toNat := by
  unfold fillIterations localDay msOfLocalDay localMs dayMs at *
  omega

theorem fillMissingDates_dates (tz : Int) (m : List (Int × DailyBucket))
    (start endT : Int) (h : msOfLocalDay tz start ≤ msOfLocalDay tz endT) :
    (fillMissingDates tz m start endT).map (fun e => e.date) =
      intRange (localDay tz start) (localDay tz endT) := by
  rw [fillMissingDates, fillDaysLoop_dates, fillIterations_eq tz start endT h,
    intRange]

theorem fillDaysLoop_zero_fill (tz : Int) (m : List (Int × DailyBucket)) :
    ∀ (n : Nat) (cur : Int) (e : DailyUsageStats),
      e ∈ fillDaysLoop tz m n cur → alistGet m e.date = none →
      e.tokenUsage = createEmptyTokenUsage ∧ e.sessionCount = 0 := by
  intro n
  induction n with
  | zero => intro cur e he; exact absurd he (List.not_mem_nil e)
  | succ n ih =>
    intro cur e he hnone
    rw [fillDaysLoop] at he
    rcases List.mem_cons.mp he with h' | h'
    · subst h'
      have h2 : alistGet m (formatDateLocal tz cur) = none := hnone
      refine ⟨?_, ?_⟩
      · show (match alistGet m (formatDateLocal tz cur) with
          | some b => b.tokenUsage
          | none => createEmptyTokenUsage) = createEmptyTokenUsage
        rw [h2]
      · show (match alistGet m (formatDateLocal tz cur) with
          | some b => b.sessionIds.length
          | none => 0) = 0
        rw [h2]
    · exact ih (cur + dayMs) e h' hnone

/-- C3 counterexample.  With a message observed one local day after the
report instant (clock skew), the observed date is in the aggregator's date
map but the daily list still ends at today: the claim's "or the latest
observed date if later than today" clause does not hold on the current
`fillMissingDates`, which always ends at `new Date()`. -/
theorem c3_counterexample_skew_day_missing :
    (alistGet (aggregateAllProjects 0 (calculateCutoffDate 0 exNow (Window.days 7))
        [{ id := "p1", isDir := true, files := [exFileSkew] }]).dailyMap
      20001).isSome = true ∧
    localDay 0 exNow = 20000 ∧
    (20001 : Int) ∉ (getOverallStatistics 0 exNow (Window.days 7)
        [{ id := "p1", isDir := true, files := [exFileSkew] }]).daily.map
        (fun e => e.date) := by
  refine ⟨by decide, by decide, by decide⟩

/-- C3 (amended).  The daily list enumerates every calendar day from the
effective window start (the cutoff, or the earliest observed message date
when the window is "all") through today exactly once, in ascending order
(`intRange` is exactly that enumeration), with zero-valued usage and
session count for every day absent from the aggregator's date map.  Days
after today never appear, even when observed.  The hypothesis (window
start's time of day not later than the report instant's) holds
automatically for numeric windows, whose start is a local midnight. -/
theorem c3_daily_gap_fill (tz now : Int) (w : Window)
    (projects : List ProjectDir)
    (h : msOfLocalDay tz
        (effectiveStartDate tz now w
          (aggregateAllProjects tz (calculateCutoffDate tz now w)
            projects).minDate) ≤
      msOfLocalDay tz now) :
    (getOverallStatistics tz now w projects).daily.map (fun e => e.date) =
      intRange
        (localDay tz
          (effectiveStartDate tz now w
            (aggregateAllProjects tz (calculateCutoffDate tz now w)
              projects).minDate))
        (localDay tz now) ∧
    ∀ e ∈ (getOverallStatistics tz now w projects).daily,
      alistGet (aggregateAllProjects tz (calculateCutoffDate tz now w)
        projects).dailyMap e.date = none →
      e.tokenUsage = createEmptyTokenUsage ∧ e.sessionCount = 0 := by
  have hdaily : (getOverallStatistics tz now w projects).daily =
      fillMissingDates tz
        (aggregateAllProjects tz (calculateCutoffDate tz now w)
          projects).dailyMap
        (effectiveStartDate tz now w
          (aggregateAllProjects tz (calculateCutoffDate tz now w)
            projects).minDate)
        now := rfl
  rw [hdaily]
  exact ⟨fillMissingDates_dates _ _ _ _ h,
    fun e he => fillDaysLoop_zero_fill _ _ _ _ e he⟩

/-- C3 witness: an empty archive with a 7-day window yields exactly the
eight days from the cutoff through today. -/
theorem c3_daily_gap_fill_witness :
    msOfLocalDay 0
      (effectiveStartDate 0 exNow (Window.days 7)
        (aggregateAllProjects 0 (calculateCutoffDate 0 exNow (Window.days 7))
          []).minDate) ≤ msOfLocalDay 0 exNow ∧
    (getOverallStatistics 0 exNow (Window.days 7) []).daily.map
      (fun e => e.date) =
      intRange
        (localDay 0
          (effectiveStartDate 0 exNow (Window.days 7)
            (aggregateAllProjects 0 (calculateCutoffDate 0 exNow (Window.days 7))
              []).minDate))
        (localDay 0 exNow) :=
  ⟨by decide, (c3_daily_gap_fill 0 exNow (Window.days 7) [] (by decide)).1⟩

/-! ## C6: tool success rates (code bug: no outcome dedup) -/

/-- C6 evaluation at the failing input.  One `Bash` invocation (`t1`)
answered by two successful `tool_result` items yields
`totalUses = 1, successfulUses = 2, successRate = 200` — the aggregator's
`tool_result` handling has no outcome-id dedup (unlike the earlier route
implementation), so the documented `0 ≤ successRate ≤ 100` bound is
violated. -/
theorem c6_eval_duplicate_outcome :
    (getOverallStatistics 0 exNow (Window.days 7)
        [{ id := "p1", isDir := true,
           files := [exFileDupResult] }]).productivity.toolUsage =
      [{ toolName := "Bash", totalUses := 1, successfulUses := 2,
         successRate := 200 }] ∧
    ∃ t ∈ (getOverallStatistics 0 exNow (Window.days 7)
        [{ id := "p1", isDir := true,
           files := [exFileDupResult] }]).productivity.toolUsage,
      (100 : ℚ) < t.successRate := by
  have hmap : (aggregateAllProjects 0
      (calculateCutoffDate 0 exNow (Window.days 7))
      [{ id := "p1", isDir := true, files := [exFileDupResult] }]).toolUsageMap =
      [("Bash", { total := 1, successful := 2 })] := by decide
  have h1 : (getOverallStatistics 0 exNow (Window.days 7)
      [{ id := "p1", isDir := true,
         files := [exFileDupResult] }]).productivity.toolUsage =
      buildToolUsage (aggregateAllProjects 0
        (calculateCutoffDate 0 exNow (Window.days 7))
        [{ id := "p1", isDir := true, files := [exFileDupResult] }]).toolUsageMap :=
    rfl
  rw [h1, hmap]
  have h2 : buildToolUsage [("Bash", { total := 1, successful := 2 })] =
      [{ toolName := "Bash", totalUses := 1, successfulUses := 2,
         successRate := 200 }] := by
    simp only [buildToolUsage, List.map_cons, List.map_nil, sortBy, sortInsert]
    norm_num
  rw [h2]
  refine ⟨rfl,
    ⟨{ toolName := "Bash", totalUses := 1, successfulUses := 2,
       successRate := 200 }, ?_, ?_⟩⟩
  · simp
  · norm_num

/-! ## C9: project-not-found vs empty report -/

/-- C9.  The per-project route distinguishes the two empty-looking cases:
a project id whose directory is missing (or is not a directory) yields the
distinct "Project not found" failure, while an existing directory whose
aggregation sees zero sessions in the window yields a valid report with a
zero session count rather than a failure. -/
theorem c9_not_found_vs_empty (tz now : Int) (projects : List ProjectDir)
    (pid : String) (w : Window) :
    (projects.find? (fun p => p.id = pid) = none →
      projectStatisticsEndpoint tz now projects pid w =
        Except.error "Project not found") ∧
    (∀ p, projects.find? (fun p => p.id = pid) = some p → p.isDir = true →
      (aggregateProject tz (calculateCutoffDate tz now w) pid
        p.files).totalSessions = 0 →
      projectStatisticsEndpoint tz now projects pid w =
        Except.ok (getProjectStatistics tz now pid w p.files) ∧
      (getProjectStatistics tz now pid w p.files).overview.sessionCount = 0) := by
  constructor
  · intro h
    simp only [projectStatisticsEndpoint, h]
  · intro p hp hdir hempty
    refine ⟨by simp only [projectStatisticsEndpoint, hp, hdir, Bool.not_true,
      Bool.false_eq_true, if_false], ?_⟩
    have hsc : (getProjectStatistics tz now pid w p.files).overview.sessionCount =
        (aggregateProject tz (calculateCutoffDate tz now w) pid
          p.files).totalSessions := rfl
    rw [hsc, hempty]

/-- C9 witness: a one-project archive answers "not found" for a missing id
and an empty (zero-session) report for the existing empty project. -/
theorem c9_not_found_vs_empty_witness :
    projectStatisticsEndpoint 0 exNow [{ id := "p1", isDir := true, files := [] }]
      "p2" (Window.days 7) = Except.error "Project not found" ∧
    projectStatisticsEndpoint 0 exNow [{ id := "p1", isDir := true, files := [] }]
      "p1" (Window.days 7) =
      Except.ok (getProjectStatistics 0 exNow "p1" (Window.days 7) []) ∧
    (getProjectStatistics 0 exNow "p1" (Window.days 7) []).overview.sessionCount = 0 :=
  ⟨(c9_not_found_vs_empty 0 exNow [{ id := "p1", isDir := true, files := [] }]
      "p2" (Window.days 7)).1 (by decide),
   ((c9_not_found_vs_empty 0 exNow [{ id := "p1", isDir := true, files := [] }]
      "p1" (Window.days 7)).2 { id := "p1", isDir := true, files := [] }
      (by decide) (by decide) (by decide)).1,
   ((c9_not_found_vs_empty 0 exNow [{ id := "p1", isDir := true, files := [] }]
      "p1" (Window.days 7)).2 { id := "p1", isDir := true, files := [] }
      (by decide) (by decide) (by decide)).2⟩

/-! ## C5: daily buckets are keyed by the local calendar date -/

theorem setAdd_mem {α : Type} [DecidableEq α] (s : List α) (x : α) :
    x ∈ setAdd s x := by
  unfold setAdd
  split_ifs with h
  · exact h
  · simp

theorem toolResultStep_dailyMap (tm : List (String × String))
    (d : AggregatedData) (item : ContentItem) :
    (toolResultStep tm d item).dailyMap = d.dailyMap := by
  unfold toolResultStep
  split
  · split
    · split_ifs with h <;> rfl
    · rfl
  · rfl

theorem foldl_toolResultStep_dailyMap (tm : List (String × String)) :
    ∀ (items : List ContentItem) (d : AggregatedData),
      (items.foldl (toolResultStep tm) d).dailyMap = d.dailyMap := by
  intro items
  induction items with
  | nil => intro d; rfl
  | cons i rest ih =>
    intro d
    rw [List.foldl_cons, ih, toolResultStep_dailyMap]

theorem processToolResults_dailyMap (msg : RawMessage) (d : AggregatedData)
    (tm : List (String × String)) :
    (processToolResults msg d tm).dailyMap = d.dailyMap := by
  obtain ⟨ty, ts, aid, taid, m⟩ := msg
  cases m with
  | none => rfl
  | some body =>
    unfold processToolResults
    simp only
    split_ifs with h
    · cases body.content with
      | none => rfl
      | some c => exact foldl_toolResultStep_dailyMap _ _ _
    · rfl

theorem toolUseStep_dailyMap (acc : AggregatedData × List (String × String))
    (item : ContentItem) :
    (toolUseStep acc item).1.dailyMap = acc.1.dailyMap := by
  unfold toolUseStep
  split
  · split
    · split_ifs with h <;> rfl
    · rfl
  · rfl

theorem foldl_toolUseStep_dailyMap :
    ∀ (items : List ContentItem)
      (acc : AggregatedData × List (String × String)),
      (items.foldl toolUseStep acc).1.dailyMap = acc.1.dailyMap := by
  intro items
  induction items with
  | nil => intro acc; rfl
  | cons i rest ih =>
    intro acc
    rw [List.foldl_cons, ih, toolUseStep_dailyMap]

theorem processToolUses_dailyMap (msg : RawMessage) (d : AggregatedData)
    (tm : List (String × String)) :
    (processToolUses msg d tm).1.dailyMap = d.dailyMap := by
  obtain ⟨ty, ts, aid, taid, m⟩ := msg
  cases m with
  | none => rfl
  | some body =>
    unfold processToolUses
    simp only
    split_ifs with h
    · cases body.content with
      | none => rfl
      | some c => exact foldl_toolUseStep_dailyMap _ _
    · rfl

/-- What `processMessage` does to the daily map when the record carries a
usage fact: exactly one upsert, keyed by the local calendar date of the
record timestamp. -/
theorem processMessage_dailyMap (tz : Int) (msg : RawMessage)
    (sid pid : String) (d : AggregatedData) (tm : List (String × String))
    (u : TokenUsage) (model : String)
    (hex : extractTokenUsage msg = some (u, model)) :
    (processMessage tz msg sid pid d tm).1.dailyMap =
      upsert d.dailyMap (formatDateLocal tz msg.timestamp)
        { tokenUsage := createEmptyTokenUsage, sessionIds := [] }
        (fun b =>
          { b with tokenUsage := addUsage b.tokenUsage u,
                   sessionIds := setAdd b.sessionIds sid }) := by
  unfold processMessage
  simp only [hex]
  rw [processToolUses_dailyMap]
  exact congrArg
    (fun m =>
      upsert m (formatDateLocal tz msg.timestamp)
        { tokenUsage := createEmptyTokenUsage, sessionIds := [] }
        (fun b =>
          { b with tokenUsage := addUsage b.tokenUsage u,
                   sessionIds := setAdd b.sessionIds sid }))
    (processToolResults_dailyMap msg d tm)

/-- C5.  The daily bucket a usage-bearing record updates is keyed by the
record timestamp's local calendar date (`formatDateLocal`): that key is
upserted with the fact and the session id, every other key is untouched —
in particular the UTC calendar date (`utcDateKey`), whenever it differs
from the local one, is not the bucket the record lands in. -/
theorem c5_local_date_bucket (tz : Int) (msg : RawMessage) (sid pid : String)
    (d : AggregatedData) (tm : List (String × String)) (u : TokenUsage)
    (model : String) (hex : extractTokenUsage msg = some (u, model)) :
    (∃ b, alistGet (processMessage tz msg sid pid d tm).1.dailyMap
        (formatDateLocal tz msg.timestamp) = some b ∧
      b.tokenUsage = addUsage
        ((alistGet d.dailyMap (formatDateLocal tz msg.timestamp)).getD
          { tokenUsage := createEmptyTokenUsage, sessionIds := [] }).tokenUsage
        u ∧
      sid ∈ b.sessionIds) ∧
    (∀ k, k ≠ formatDateLocal tz msg.timestamp →
      alistGet (processMessage tz msg sid pid d tm).1.dailyMap k =
        alistGet d.dailyMap k) ∧
    (utcDateKey msg.timestamp ≠ formatDateLocal tz msg.timestamp →
      alistGet (processMessage tz msg sid pid d tm).1.dailyMap
        (utcDateKey msg.timestamp) =
        alistGet d.dailyMap (utcDateKey msg.timestamp)) := by
  rw [processMessage_dailyMap tz msg sid pid d tm u model hex]
  refine ⟨?_, ?_, ?_⟩
  · rw [alistGet_upsert_self]
    exact ⟨_, rfl, rfl, setAdd_mem _ _⟩
  · intro k hk
    exact alistGet_upsert_ne _ _ _ _ _ hk
  · intro hne
    exact alistGet_upsert_ne _ _ _ _ _ hne

/-- C5 witness: at offset UTC−1h, a record half an hour past UTC midnight
lands in local day 19998, and the UTC day key 19999 stays absent. -/
theorem c5_local_date_bucket_witness :
    extractTokenUsage exMsgHalfHour =
      some (exUsageTU, "claude-sonnet-4-5-20250929") ∧
    formatDateLocal (-60) exMsgHalfHour.timestamp = 19998 ∧
    utcDateKey exMsgHalfHour.timestamp = 19999 ∧
    alistGet (processMessage (-60) exMsgHalfHour "s1" "p1"
        createEmptyAggregatedData []).1.dailyMap
      (utcDateKey exMsgHalfHour.timestamp) =
      alistGet createEmptyAggregatedData.dailyMap
        (utcDateKey exMsgHalfHour.timestamp) :=
  ⟨by decide, by decide, by decide,
    (c5_local_date_bucket (-60) exMsgHalfHour "s1" "p1"
      createEmptyAggregatedData [] exUsageTU "claude-sonnet-4-5-20250929"
      (by decide)).2.2 (by decide)⟩

theorem foldSessionMessages_skip (tz cutoffDate : Int) (sid pid : String)
    (msgs : List RawMessage) :
    ∀ (acc : AggregatedData × List (String × String)),
      (∀ m ∈ msgs, m.timestamp < cutoffDate) →
      foldSessionMessages tz cutoffDate sid pid acc msgs = acc := by
  induction msgs with
  | nil => intro acc _; rfl
  | cons m rest ih =>
    intro acc hall
    rw [foldSessionMessages, List.foldl_cons]
    have hstep : sessionMsgStep tz cutoffDate sid pid acc m = acc := by
      unfold sessionMsgStep
      rw [if_pos (hall m (List.mem_cons_self _ _))]
    rw [hstep]
    have := ih acc (fun x hx => hall x (List.mem_cons_of_mem _ hx))
    rw [foldSessionMessages] at this
    exact this

/-- C1 counterexample.  A session file whose two records both predate the
cutoff is nonetheless counted: the aggregation pass reports one session,
and the session's id sits in its project's distinct-session set — the
claim's "contributes nothing anywhere, including session-count" is false
on the code (`totalSessions++` and `projectData.sessionIds.add` run before
the per-message cutoff filter). -/
theorem c1_counterexample_old_session_counted :
    (∀ m ∈ exFileOld.messages,
      m.timestamp < calculateCutoffDate 0 exNow (Window.days 7)) ∧
    (aggregateAllProjects 0 (calculateCutoffDate 0 exNow (Window.days 7))
      [{ id := "p1", isDir := true, files := [exFileOld] }]).totalSessions = 1 ∧
    (alistGet (aggregateAllProjects 0 (calculateCutoffDate 0 exNow (Window.days 7))
      [{ id := "p1", isDir := true, files := [exFileOld] }]).projectMap
      "p1").map (fun b => b.sessionIds) = some ["s-old"] := by
  refine ⟨by decide, by decide, by decide⟩

/-- C1 (amended).  A session whose records all predate the cutoff
contributes nothing to the daily/hourly/weekday/model/tool buckets, no
usage, no message count, no cache totals and no observed dates — but it
IS counted: `totalSessions` is incremented, its id is added to its
project's distinct-session set, and the sessions-with-agents counter is
bumped when the session carries agent links. -/
theorem c1_out_of_window_session (tz cutoffDate : Int) (pid : String)
    (d : AggregatedData) (f : SessionFile)
    (hjsonl : strEndsWith f.name ".jsonl" = true)
    (hagent : isAgentSession (replaceFirst f.name ".jsonl") = false)
    (hsize : isEmptyFile f.size = false)
    (hskip : shouldSkipSession f.messages = false)
    (hold : ∀ m ∈ f.messages, m.timestamp < cutoffDate) :
    (aggregateFileStep tz cutoffDate pid d f).totalSessions =
      d.totalSessions + 1 ∧
    (aggregateFileStep tz cutoffDate pid d f).projectMap =
      modifyAt d.projectMap pid
        (fun b =>
          { b with sessionIds :=
              setAdd b.sessionIds (replaceFirst f.name ".jsonl") }) ∧
    (aggregateFileStep tz cutoffDate pid d f).totalAgentSessions =
      d.totalAgentSessions +
        (if 0 < (collectAgentDescriptions f.messages).length then 1 else 0) ∧
    (aggregateFileStep tz cutoffDate pid d f).dailyMap = d.dailyMap ∧
    (aggregateFileStep tz cutoffDate pid d f).hourlyMap = d.hourlyMap ∧
    (aggregateFileStep tz cutoffDate pid d f).weekdayMap = d.weekdayMap ∧
    (aggregateFileStep tz cutoffDate pid d f).modelMap = d.modelMap ∧
    (aggregateFileStep tz cutoffDate pid d f).toolUsageMap = d.toolUsageMap ∧
    (aggregateFileStep tz cutoffDate pid d f).allUsages = d.allUsages ∧
    (aggregateFileStep tz cutoffDate pid d f).totalMessages = d.totalMessages ∧
    (aggregateFileStep tz cutoffDate pid d f).minDate = d.minDate ∧
    (aggregateFileStep tz cutoffDate pid d f).maxDate = d.maxDate ∧
    (aggregateFileStep tz cutoffDate pid d f).totalCacheCreation =
      d.totalCacheCreation ∧
    (aggregateFileStep tz cutoffDate pid d f).totalCacheRead =
      d.totalCacheRead := by
  by_cases hag : 0 < (collectAgentDescriptions f.messages).length
  · have hstep : aggregateFileStep tz cutoffDate pid d f =
        { d with
          projectMap :=
            modifyAt d.projectMap pid
              (fun b =>
                { b with sessionIds :=
                    setAdd b.sessionIds (replaceFirst f.name ".jsonl") }),
          totalSessions := d.totalSessions + 1,
          totalAgentSessions := d.totalAgentSessions + 1 } := by
      simp only [aggregateFileStep, hjsonl, hagent, hsize, hskip, hag,
        Bool.not_true, Bool.false_eq_true, if_false, gt_iff_lt, if_true]
      rw [foldSessionMessages_skip tz cutoffDate _ pid f.messages _ hold]
    rw [hstep, if_pos hag]
    exact ⟨rfl, rfl, rfl, rfl, rfl, rfl, rfl, rfl, rfl, rfl, rfl, rfl, rfl, rfl⟩
  · have hstep : aggregateFileStep tz cutoffDate pid d f =
        { d with
          projectMap :=
            modifyAt d.projectMap pid
              (fun b =>
                { b with sessionIds :=
                    setAdd b.sessionIds (replaceFirst f.name ".jsonl") }),
          totalSessions := d.totalSessions + 1 } := by
      simp only [aggregateFileStep, hjsonl, hagent, hsize, hskip, hag,
        Bool.not_true, Bool.false_eq_true, if_false, gt_iff_lt]
      rw [foldSessionMessages_skip tz cutoffDate _ pid f.messages _ hold]
    rw [hstep, if_neg hag]
    exact ⟨rfl, rfl, rfl, rfl, rfl, rfl, rfl, rfl, rfl, rfl, rfl, rfl, rfl, rfl⟩

/-! ## C2: agent (sub-)sessions are excluded from top-level enumeration -/

/-- The file loop ignores an agent-named `.jsonl` file entirely. -/
theorem aggregateFileStep_agent (tz cutoffDate : Int) (pid : String)
    (d : AggregatedData) (f : SessionFile)
    (h1 : strEndsWith f.name ".jsonl" = true)
    (h2 : isAgentSession (replaceFirst f.name ".jsonl") = true) :
    aggregateFileStep tz cutoffDate pid d f = d := by
  simp only [aggregateFileStep, h1, h2, Bool.not_true, Bool.false_eq_true,
    if_false, if_true]

/-- The project loop gives the same result whether or not an agent-named
file sits in the directory listing. -/
theorem aggregateProjectStep_agent (tz cutoffDate : Int) (d : AggregatedData)
    (pid : String) (dflag : Bool) (files1 files2 : List SessionFile)
    (f : SessionFile)
    (h1 : strEndsWith f.name ".jsonl" = true)
    (h2 : isAgentSession (replaceFirst f.name ".jsonl") = true) :
    aggregateProjectStep tz cutoffDate d
      { id := pid, isDir := dflag, files := files1 ++ f :: files2 } =
    aggregateProjectStep tz cutoffDate d
      { id := pid, isDir := dflag, files := files1 ++ files2 } := by
  simp only [aggregateProjectStep]
  split_ifs with h
  · rfl
  · rw [List.foldl_append, List.foldl_append, List.foldl_cons,
      aggregateFileStep_agent tz cutoffDate pid _ f h1 h2]

/-- C2.  A session file whose filename-derived id carries the agent
(sub-session) marker is excluded from top-level enumeration everywhere:
(a) the statistics pass over any archive is unchanged by inserting such a
file into any project's listing (so no total and no bucket ever sees it);
(b) the session listing never returns an agent session at top level — an
agent session can reach the caller only inside a parent's `agentSessions`
link list, which is the only other channel `getProjectSessions` fills. -/
theorem c2_agent_sessions_excluded (tz cutoffDate : Int)
    (pre post : List ProjectDir) (pid : String) (dflag : Bool)
    (files1 files2 : List SessionFile) (f : SessionFile)
    (h1 : strEndsWith f.name ".jsonl" = true)
    (h2 : isAgentSession (replaceFirst f.name ".jsonl") = true) :
    aggregateAllProjects tz cutoffDate
      (pre ++ { id := pid, isDir := dflag, files := files1 ++ f :: files2 } :: post) =
    aggregateAllProjects tz cutoffDate
      (pre ++ { id := pid, isDir := dflag, files := files1 ++ files2 } :: post) ∧
    ∀ (titleOf : List RawMessage → String) (pid2 : String)
      (files : List SessionFile) (s : SessionOut),
      s ∈ getProjectSessions titleOf pid2 files → s.core.isAgent = false := by
  constructor
  · rw [aggregateAllProjects, aggregateAllProjects, List.foldl_append,
      List.foldl_append, List.foldl_cons, List.foldl_cons,
      aggregateProjectStep_agent tz cutoffDate _ pid dflag files1 files2 f h1 h2]
  · intro titleOf pid2 files s hs
    have hcore : ∀ (session : SessionCore) (a m),
        (attachAgentSessionsToParent session a m).core = session := by
      intro session a m
      unfold attachAgentSessionsToParent
      split_ifs <;> rfl
    have hmain : ∀ (fs : List SessionFile)
        (acc : List SessionCore × List (String × SessionCore)),
        (∀ t ∈ acc.1, t.isAgent = false) →
        ∀ t ∈ (fs.foldl (loadSessionStep titleOf pid2) acc).1,
          t.isAgent = false := by
      intro fs
      induction fs with
      | nil => intro acc hacc; exact hacc
      | cons file rest ih =>
        intro acc hacc
        rw [List.foldl_cons]
        apply ih
        simp only [loadSessionStep]
        split_ifs with g1 g2 g3 g4
        · exact hacc
        · exact hacc
        · exact hacc
        · exact hacc
        · intro t ht
          rcases List.mem_append.mp ht with h' | h'
          · exact hacc t h'
          · rw [List.mem_singleton.mp h']
            simp only [Bool.not_eq_true] at g4
            exact g4
    rcases List.mem_map.mp hs with ⟨session, hsession, hattach⟩
    rw [← hattach, hcore]
    exact hmain files ([], []) (by simp) session hsession

/-- C2 witness: inserting a concrete agent file changes nothing in the
aggregate, and the concrete listing contains no top-level agent session. -/
theorem c2_agent_sessions_excluded_witness :
    aggregateAllProjects 0 (calculateCutoffDate 0 exNow (Window.days 7))
      [{ id := "p1", isDir := true,
         files := [exFileOld,
           { name := "agent-x.jsonl", size := 5, mtime := 0,
             messages := [exMsgUser, exMsgAssistant] }] }] =
    aggregateAllProjects 0 (calculateCutoffDate 0 exNow (Window.days 7))
      [{ id := "p1", isDir := true, files := [exFileOld] }] ∧
    (getProjectSessions (fun _ => "t") "p1"
      [{ name := "agent-x.jsonl", size := 5, mtime := 0,
         messages := [exMsgUser, exMsgAssistant] },
       exFileOld]).map (fun s => s.core.isAgent) = [false] :=
  ⟨(c2_agent_sessions_excluded 0 (calculateCutoffDate 0 exNow (Window.days 7))
      [] [] "p1" true [exFileOld] [] _ (by decide) (by decide)).1,
    by decide⟩

/-- C1 witness: the amended statement evaluated on the concrete all-old
session. -/
theorem c1_out_of_window_session_witness :
    (∀ m ∈ exFileOld.messages,
      m.timestamp < calculateCutoffDate 0 exNow (Window.days 7)) ∧
    (aggregateFileStep 0 (calculateCutoffDate 0 exNow (Window.days 7)) "p1"
      createEmptyAggregatedData exFileOld).totalSessions =
      createEmptyAggregatedData.totalSessions + 1 :=
  ⟨by decide,
    (c1_out_of_window_session 0 (calculateCutoffDate 0 exNow (Window.days 7))
      "p1" createEmptyAggregatedData exFileOld (by decide) (by decide)
      (by decide) (by decide) (by decide)).1⟩

end SessionViewer
